import Mathlib

/-!
Verification development for the macscan MAC-address inventory engine.

This file gives a shallow embedding of the engine's core:
* the MAC-table parser (`parseMacAddressTable`, `isValidMAC` from
  `src/backend/src/models/Job.js`),
* the reconciler `_processDevices`, the retention enforcer
  `_applyRetentionPolicy` and the orchestrator `runJob` from the
  `MacScanRunner` service (`src/unnamed/part_000`),
* the SQLite tables they touch (`src/backend/src/database/init.js`),
  modelled as lists of records inside a `Db` structure; the
  `UNIQUE(job_id, mac_address, host_name)` constraint of `known_devices`
  is modelled by making the INSERT fail when a row with the same key for
  the same job already exists.

Conventions of the embedding:
* SQL `CURRENT_TIMESTAMP` and the `datetime` arithmetic of the retention
  query are modelled by an integer clock `now` (seconds); `'-N days'`
  becomes `now - N * 86400`.
* `uuidv4()` is modelled by a fresh-id counter `nextId` in the database
  state; row ids are natural numbers.
* JavaScript string operations on the raw command output are modelled on
  `List Char` by structural recursion so that all definitions compute in
  the kernel; `String.data` mediates.
* Fields that record only wall-clock diagnostics (`started_at`,
  `finished_at`, `duration`, `debug_info` of `job_runs`, the `read` flag
  and `created_at` of `notifications`) are omitted: no verified property
  mentions them.
* The SSH transport is external to the engine; `runJob` receives the
  per-enabled-host scan outcomes (`result.success` / `result.devices`)
  as a list of `Except` values, one per enabled host, in host order.
-/

/-- One observed MAC-table line, as produced by `parseMacAddressTable`
(`devices.push({...})` in Job.js) and consumed by `_processDevices`. -/
structure Observation where
  mac_address : String
  vlan_id : Int
  type : String
  interface_name : String
  host_name : String
  detected_at : String
deriving DecidableEq, Repr

/-- A row of the `known_devices` table. -/
structure KnownDevice where
  id : Nat
  job_id : String
  mac_address : String
  host_name : String
  interface_name : String
  vlan_id : Int
  whitelisted : Bool
  first_seen : Int
  last_seen : Int
  status : String
deriving DecidableEq, Repr

/-- A row of the `device_history` table. -/
structure DeviceHistory where
  id : Nat
  job_id : String
  mac_address : String
  host_name : String
  interface_name : String
  vlan_id : Int
  detected_at : Int
deriving DecidableEq, Repr

/-- A row of the `notifications` table, as created by
`NotificationService.createNotification`. -/
structure Notification where
  job_id : String
  job_name : String
  type : String
  message : String
  mac_address : String
  host_name : String
  interface_name : String
deriving DecidableEq, Repr

/-- A row of the `job_runs` table (diagnostic timestamp fields omitted). -/
structure JobRun where
  id : Nat
  job_id : String
  status : String
  hosts_scanned : Nat
  devices_found : Nat
  new_devices : Nat
  warnings : Nat
  error_message : Option String
deriving DecidableEq, Repr

/-- A row of the `jobs` table (scheduling fields omitted). -/
structure Job where
  id : String
  name : String
  notifications_enabled : Bool
  notify_new_macs : Bool
  notify_unauthorized_macs : Bool
  notify_ip_changes : Bool
  retention_policy : String
  retention_days : Int
  status : String
  last_run : Option Int
deriving DecidableEq, Repr

/-- The database state: the tables touched by the engine plus the
fresh-id counter standing in for `uuidv4()`.  `job_whitelist` rows are
(job id, MAC) pairs. -/
structure Db where
  jobs : List Job
  job_whitelist : List (String × String)
  known_devices : List KnownDevice
  device_history : List DeviceHistory
  notifications : List Notification
  job_runs : List JobRun
  nextId : Nat
deriving DecidableEq, Repr

/-! ## Table parser (Job.js `parseMacAddressTable` / `isValidMAC`) -/

/-- One group step of the MAC regex
`^([0-9a-f]{2}[:-]){5}([0-9a-f]{2})$` with the `i` flag: `n` separated
groups remain before the final two hex digits. -/
def macRec (isHex : Char → Bool) : Nat → List Char → Bool
  | 0, [a, b] => isHex a && isHex b
  | n + 1, a :: b :: s :: rest =>
      isHex a && isHex b && (s == ':' || s == '-') && macRec isHex n rest
  | _, _ => false

/-- A hex digit of the character class `[0-9a-f]` under the
case-insensitive flag. -/
def jsHexDigit (c : Char) : Bool :=
  c.isDigit || ('a' ≤ c && c ≤ 'f') || ('A' ≤ c && c ≤ 'F')

/-- Job.js `isValidMAC`: test against
`/^([0-9a-f]{2}[:-]){5}([0-9a-f]{2})$/i`. -/
def isValidMAC (mac : String) : Bool :=
  macRec jsHexDigit 5 mac.data

/-- JavaScript `parseInt(tok, 10)` on a whitespace-free token, as an
`Option`: `none` is `NaN`.  An optional sign followed by the longest
leading digit run; anything after the digits is ignored. -/
def jsParseInt (s : String) : Option Int :=
  let core : List Char → Option Int := fun cs =>
    let digits := cs.takeWhile Char.isDigit
    if digits.isEmpty then none
    else some (digits.foldl (fun acc c => acc * 10 + (c.toNat - 48)) (0 : Int))
  match s.data with
  | '-' :: rest => (core rest).map (fun n => -n)
  | '+' :: rest => core rest
  | cs => core cs

/-- JavaScript `trimmedLine.includes(sub)`: contiguous substring test,
written `jsIncludes hay sub`. -/
def jsIncludes : List Char → List Char → Bool
  | hay, sub =>
    sub.isPrefixOf hay ||
      match hay with
      | [] => false
      | _ :: hs => jsIncludes hs sub

/-- JavaScript `line.trim()`. -/
def jsTrim (cs : List Char) : List Char :=
  ((cs.dropWhile Char.isWhitespace).reverse.dropWhile Char.isWhitespace).reverse

/-- JavaScript `trimmed.split(/\s+/)` on an already-trimmed line:
split on whitespace runs, dropping empty tokens. -/
def jsSplitWs (cs : List Char) : List (List Char) :=
  (cs.splitOnP Char.isWhitespace).filter (fun t => !t.isEmpty)

/-- One iteration of the line loop of `parseMacAddressTable`: `none`
when the line is skipped or rejected, `some` when an observation is
pushed.  `now` models `new Date().toISOString()`. -/
def parseLine (hostName now : String) (line : List Char) : Option Observation :=
  let trimmedLine := jsTrim line
  if trimmedLine.isEmpty || jsIncludes trimmedLine "VlanId".data ||
      jsIncludes trimmedLine "---".data || jsIncludes trimmedLine "--more--".data ||
      jsIncludes trimmedLine "Codes:".data || "pv ".data.isPrefixOf trimmedLine then
    none
  else
    match jsSplitWs trimmedLine with
    | p0 :: p1 :: p2 :: p3 :: rest =>
        let macAddress : String := ⟨p1.map Char.toLower⟩
        match jsParseInt ⟨p0⟩ with
        | some vlanId =>
            if isValidMAC macAddress then
              some { mac_address := macAddress
                     vlan_id := vlanId
                     type := ⟨p2⟩
                     interface_name := ⟨List.intercalate [' '] (p3 :: rest)⟩
                     host_name := hostName
                     detected_at := now }
            else none
        | none => none
    | _ => none

/-- Job.js `parseMacAddressTable(output, hostName)`. -/
def parseMacAddressTable (output hostName now : String) : List Observation :=
  (output.data.splitOn '\n').filterMap (parseLine hostName now)

/-! ## Reconciler (`MacScanRunner._processDevices`) -/

/-- The string key `` `${mac_address}:${host_name}` `` used by
`_processDevices` for its in-memory `knownDevices` map. -/
def deviceKeyStr (mac host : String) : String :=
  mac ++ ":" ++ host

/-- Key of a `known_devices` row. -/
def rowKey (r : KnownDevice) : String :=
  deviceKeyStr r.mac_address r.host_name

/-- Key of an observation. -/
def obsKey (d : Observation) : String :=
  deviceKeyStr d.mac_address d.host_name

/-- JavaScript `Map.set`: replace in place when the key is present,
append otherwise. -/
def mapSet (m : List (String × KnownDevice)) (k : String) (v : KnownDevice) :
    List (String × KnownDevice) :=
  if m.any (fun e => e.1 == k) then
    m.map (fun e => if e.1 == k then (k, v) else e)
  else m ++ [(k, v)]

/-- JavaScript `Map.get`. -/
def mapGet (m : List (String × KnownDevice)) (k : String) : Option KnownDevice :=
  (m.find? (fun e => e.1 == k)).map (fun e => e.2)

/-- JavaScript `Map.delete` (keys are unique in a JS map, so removing
every binding of `k` is removing the one binding). -/
def mapDelete (m : List (String × KnownDevice)) (k : String) :
    List (String × KnownDevice) :=
  m.filter (fun e => e.1 != k)

/-- The `knownDevices` map built at the top of `_processDevices` from
`SELECT * FROM known_devices WHERE job_id = ?`. -/
def buildMap (rows : List KnownDevice) : List (String × KnownDevice) :=
  rows.foldl (fun m r => mapSet m (rowKey r) r) []

/-- Modelled from the spec: `NotificationService.createNotification`
(its source file is not in the repository snapshot; §6 of the spec
makes the notification sink an append-only write of Notification
records).  Appends one row to the `notifications` table. -/
def createNotification (db : Db) (n : Notification) : Db :=
  { db with notifications := db.notifications ++ [n] }

/-- The `INSERT INTO device_history ...` statement run once per
observation. -/
def insertHistory (jobId : String) (now : Int) (d : Observation) (db : Db) : Db :=
  { db with
    device_history := db.device_history ++
      [{ id := db.nextId, job_id := jobId, mac_address := d.mac_address,
         host_name := d.host_name, interface_name := d.interface_name,
         vlan_id := d.vlan_id, detected_at := now }]
    nextId := db.nextId + 1 }

/-- Loop state of the device loop of `_processDevices`: the counters,
the in-memory map, and the database. -/
structure LoopSt where
  newDevices : Nat
  warnings : Nat
  map : List (String × KnownDevice)
  db : Db
deriving Repr

/-- One iteration of `for (const device of devices)` in
`_processDevices`.  The only failable statement is the INSERT into
`known_devices`, which violates `UNIQUE(job_id, mac_address, host_name)`
exactly when a row with that key already exists for the job; the error
aborts the iteration before any of its later writes. -/
def processOne (jobId : String) (whitelist : List String) (job : Job) (now : Int)
    (st : LoopSt) (d : Observation) : Except String LoopSt :=
  let isWhitelisted := whitelist.contains d.mac_address
  match mapGet st.map (obsKey d) with
  | none =>
    -- new device discovered
    if st.db.known_devices.any (fun r =>
        r.job_id == jobId && r.mac_address == d.mac_address &&
        r.host_name == d.host_name) then
      .error "UNIQUE constraint failed: known_devices"
    else
      let row : KnownDevice :=
        { id := st.db.nextId, job_id := jobId, mac_address := d.mac_address,
          host_name := d.host_name, interface_name := d.interface_name,
          vlan_id := d.vlan_id, whitelisted := isWhitelisted,
          first_seen := now, last_seen := now, status := "active" }
      let db1 := { st.db with known_devices := st.db.known_devices ++ [row],
                              nextId := st.db.nextId + 1 }
      let notified :=
        if job.notifications_enabled then
          if isWhitelisted && job.notify_new_macs then
            (createNotification db1
              { job_id := jobId, job_name := job.name, type := "information"
                message := "New authorized device discovered: " ++ d.mac_address ++
                  " on " ++ d.host_name
                mac_address := d.mac_address, host_name := d.host_name
                interface_name := d.interface_name }, st.warnings)
          else if !isWhitelisted && job.notify_unauthorized_macs then
            (createNotification db1
              { job_id := jobId, job_name := job.name, type := "warning"
                message := "Unauthorized device detected: " ++ d.mac_address ++
                  " on " ++ d.host_name
                mac_address := d.mac_address, host_name := d.host_name
                interface_name := d.interface_name }, st.warnings + 1)
          else (db1, st.warnings)
        else (db1, st.warnings)
      .ok { newDevices := st.newDevices + 1, warnings := notified.2,
            map := st.map, db := insertHistory jobId now d notified.1 }
  | some existingDevice =>
    -- existing device: optional move notification, then UPDATE
    let db1 :=
      if existingDevice.interface_name != d.interface_name &&
          job.notifications_enabled && job.notify_ip_changes then
        createNotification st.db
          { job_id := jobId, job_name := job.name, type := "information"
            message := "Device " ++ d.mac_address ++ " moved from " ++
              existingDevice.interface_name ++ " to " ++ d.interface_name ++
              " on " ++ d.host_name
            mac_address := d.mac_address, host_name := d.host_name
            interface_name := d.interface_name }
      else st.db
    let db2 := { db1 with
      known_devices := db1.known_devices.map (fun r =>
        if r.job_id == jobId && r.mac_address == d.mac_address &&
            r.host_name == d.host_name then
          { r with interface_name := d.interface_name, vlan_id := d.vlan_id,
                   last_seen := now, status := "active" }
        else r) }
    .ok { newDevices := st.newDevices, warnings := st.warnings,
          map := mapDelete st.map (obsKey d),
          db := insertHistory jobId now d db2 }

/-- The device loop.  On an INSERT failure the loop stops; the writes of
earlier iterations stay applied (there is no enclosing transaction), the
counters of the aborted call never reach the caller. -/
def processLoop (jobId : String) (whitelist : List String) (job : Job) (now : Int) :
    LoopSt → List Observation → LoopSt × Option String
  | st, [] => (st, none)
  | st, d :: rest =>
    match processOne jobId whitelist job now st d with
    | .ok st1 => processLoop jobId whitelist job now st1 rest
    | .error e => (st, some e)

/-- The trailing `for (const [deviceKey, device] of knownDevices)` loop:
every device left in the map is marked `inactive`. -/
def markInactive (jobId : String) (m : List (String × KnownDevice)) (db : Db) : Db :=
  m.foldl (fun acc e =>
    { acc with known_devices := acc.known_devices.map (fun r =>
        if r.job_id == jobId && r.mac_address == e.2.mac_address &&
            r.host_name == e.2.host_name then
          { r with status := "inactive" }
        else r) }) db

/-- Lines 170–290 of the runner: build the map, run the device loop,
mark unseen devices inactive.  Returns `(newDevices, warnings, db)`; an
error carries the partially updated database. -/
def reconcileDevices (jobId : String) (devices : List Observation)
    (whitelist : List String) (job : Job) (now : Int) (db : Db) :
    Except (String × Db) (Nat × Nat × Db) :=
  let knownMap := buildMap (db.known_devices.filter (fun r => r.job_id == jobId))
  match processLoop jobId whitelist job now
      { newDevices := 0, warnings := 0, map := knownMap, db := db } devices with
  | (st, some e) => .error (e, st.db)
  | (st, none) => .ok (st.newDevices, st.warnings, markInactive jobId st.map st.db)

/-- `MacScanRunner._applyRetentionPolicy`.  `DELETE ... WHERE cond`
keeps the rows not satisfying `cond`; the `'days'` time comparison
`datetime(last_seen) < datetime('now', '-' || retention_days || ' days')`
becomes `last_seen < now - retention_days * 86400`. -/
def applyRetentionPolicy (jobId : String) (job : Job) (now : Int) (db : Db) : Db :=
  if job.retention_policy == "forever" then db
  else if job.retention_policy == "remove" then
    { db with known_devices := db.known_devices.filter (fun r =>
        !(r.job_id == jobId && r.status == "inactive")) }
  else if job.retention_policy == "days" then
    { db with known_devices := db.known_devices.filter (fun r =>
        !(r.job_id == jobId && r.status == "inactive" &&
          decide (r.last_seen < now - job.retention_days * 86400))) }
  else db

/-- The counters returned by `_processDevices`. -/
structure RunResult where
  devicesFound : Nat
  newDevices : Nat
  warnings : Nat
deriving DecidableEq, Repr

/-- `MacScanRunner._processDevices`: reconcile, apply the retention
policy, return the counters. -/
def processDevices (jobId : String) (devices : List Observation)
    (whitelist : List String) (job : Job) (now : Int) (db : Db) :
    Except (String × Db) (RunResult × Db) :=
  match reconcileDevices jobId devices whitelist job now db with
  | .error (e, db1) => .error (e, db1)
  | .ok (n, w, db1) =>
    .ok ({ devicesFound := devices.length, newDevices := n, warnings := w },
      applyRetentionPolicy jobId job now db1)

/-! ## Orchestrator (`MacScanRunner.runJob`) -/

/-- The `catch` block of `runJob`: finalize the job run as `failed` with
the error message and return the job to `active`. -/
def failRun (runId : Nat) (jobId : String) (msg : String) (db : Db) : Db :=
  { db with
    job_runs := db.job_runs.map (fun r =>
      if r.id == runId then { r with status := "failed", error_message := some msg }
      else r),
    jobs := db.jobs.map (fun j =>
      if j.id == jobId then { j with status := "active" } else j) }

/-- `MacScanRunner.runJob`.  The SSH transport is external: `scans` is
the list of per-enabled-host outcomes of
`sshService.getMacAddressTable`, in host order (`.ok devices` for a
successful scan, `.error msg` for a failed one).  The in-memory
`runningJobs` registry guards a single invocation and is not part of
the stored state, so it is not modelled.  Returns the final database
and `some message` when the call throws. -/
def runJob (jobId : String) (scans : List (Except String (List Observation)))
    (now : Int) (db : Db) : Db × Option String :=
  match db.jobs.find? (fun j => j.id == jobId && j.status == "active") with
  | none => (db, some "Job not found or inactive")
  | some job =>
    if scans.length = 0 then
      (db, some "No enabled SSH hosts configured for this job")
    else
      let whitelist := (db.job_whitelist.filter (fun e => e.1 == jobId)).map
        (fun e => e.2)
      let runId := db.nextId
      let newRun : JobRun :=
        { id := runId, job_id := jobId, status := "running",
          hosts_scanned := scans.length, devices_found := 0,
          new_devices := 0, warnings := 0, error_message := none }
      let db1 := { db with job_runs := db.job_runs ++ [newRun],
                           nextId := db.nextId + 1 }
      let db2 := { db1 with jobs := db1.jobs.map (fun j =>
        if j.id == jobId then { j with status := "running", last_run := some now }
        else j) }
      let allDevices := scans.foldl (fun acc s =>
        match s with
        | .ok ds => acc ++ ds
        | .error _ => acc) []
      let successfulHosts := scans.countP (fun s => s.toBool)
      if successfulHosts = 0 then
        let msg := "Failed to scan any hosts"
        (failRun runId jobId msg db2, some msg)
      else
        match processDevices jobId allDevices whitelist job now db2 with
        | .error (e, db3) => (failRun runId jobId e db3, some e)
        | .ok (res, db3) =>
          let db4 := { db3 with
            job_runs := db3.job_runs.map (fun r =>
              if r.id == runId then
                { r with status := "completed", devices_found := res.devicesFound,
                         new_devices := res.newDevices, warnings := res.warnings }
              else r),
            jobs := db3.jobs.map (fun j =>
              if j.id == jobId then { j with status := "active" } else j) }
          (db4, none)

/-! ## Proof-support definitions -/

/-- The database carried by either outcome of `_processDevices` (on an
error the writes already made persist: there is no transaction). -/
def outDb : Except (String × Db) (RunResult × Db) → Db
  | .ok (_, db) => db
  | .error (_, db) => db

/-- The error message of a failed `_processDevices` call, if any. -/
def errOf : Except (String × Db) (RunResult × Db) → Option String
  | .ok _ => none
  | .error (e, _) => some e

/-- The rows of `known_devices` belonging to one job, as selected at the
top of `_processDevices`. -/
def jobRows (jobId : String) (db : Db) : List KnownDevice :=
  db.known_devices.filter (fun r => r.job_id == jobId)

/-- The keys of the job's rows before reconciliation. -/
def initKeys (jobId : String) (db : Db) : List String :=
  (jobRows jobId db).map rowKey

/-- The UPDATE applied to an existing row for an observation: interface,
VLAN, last-seen and status change, nothing else. -/
def activeUpd (now : Int) (d : Observation) (r : KnownDevice) : KnownDevice :=
  { r with interface_name := d.interface_name, vlan_id := d.vlan_id,
           last_seen := now, status := "active" }

/-- The first observation of a batch matching a row's (MAC, host) pair. -/
def obsFor (ds : List Observation) (r : KnownDevice) : Option Observation :=
  ds.find? (fun d => r.mac_address == d.mac_address && r.host_name == d.host_name)

/-- State of a pre-existing row after the device loop has processed the
prefix `p` of the batch (observed rows updated, nothing marked yet). -/
def midRow (jobId : String) (now : Int) (p : List Observation) (r : KnownDevice) :
    KnownDevice :=
  if r.job_id == jobId then
    match obsFor p r with
    | some d => activeUpd now d r
    | none => r
  else r

/-- State of a pre-existing row after full reconciliation of the batch
`ds`: observed rows are updated and `active`, unobserved rows of the job
are `inactive`, rows of other jobs are untouched. -/
def finalRow (jobId : String) (now : Int) (ds : List Observation) (r : KnownDevice) :
    KnownDevice :=
  if r.job_id == jobId then
    match obsFor ds r with
    | some d => activeUpd now d r
    | none => { r with status := "inactive" }
  else r

/-- Shape of a row inserted for a newly discovered observation (the id
is left unconstrained: it comes from the fresh-id counter). -/
def insShape (jobId : String) (wl : List String) (now : Int)
    (d : Observation) (r : KnownDevice) : Prop :=
  r.job_id = jobId ∧ r.mac_address = d.mac_address ∧ r.host_name = d.host_name ∧
  r.interface_name = d.interface_name ∧ r.vlan_id = d.vlan_id ∧
  r.whitelisted = wl.contains d.mac_address ∧ r.first_seen = now ∧
  r.last_seen = now ∧ r.status = "active"

/-- Batch observations whose key is new to the job's inventory. -/
def isNewObs (jobId : String) (db0 : Db) (d : Observation) : Bool :=
  !((initKeys jobId db0).contains (obsKey d))

/-- Invariant of the device loop of `_processDevices` after the prefix
`p` of the batch has been processed without error, starting from the
database `db0`. -/
structure LoopInv (jobId : String) (wl : List String) (now : Int) (db0 : Db)
    (p : List Observation) (st : LoopSt) : Prop where
  jobs_eq : st.db.jobs = db0.jobs
  runs_eq : st.db.job_runs = db0.job_runs
  wl_eq : st.db.job_whitelist = db0.job_whitelist
  map_eq : st.map = (buildMap (jobRows jobId db0)).filter
      (fun e => !((p.map obsKey).contains e.1))
  kd_eq : ∃ ins, st.db.known_devices =
      db0.known_devices.map (midRow jobId now p) ++ ins ∧
      List.Forall₂ (insShape jobId wl now) (p.filter (isNewObs jobId db0)) ins
  new_eq : st.newDevices = p.countP (isNewObs jobId db0)

/-- Erase the last-seen field, to state "unchanged except last-seen". -/
def clearLastSeen (r : KnownDevice) : KnownDevice :=
  { r with last_seen := 0 }

/-! ## Concrete fixtures for witnesses and counterexamples -/

/-- A job with every notification switched on and no pruning. -/
def exJob : Job :=
  { id := "j", name := "J", notifications_enabled := true,
    notify_new_macs := true, notify_unauthorized_macs := true,
    notify_ip_changes := true, retention_policy := "forever",
    retention_days := 30, status := "active", last_run := none }

/-- The same job with the master notification flag off. -/
def exJobQuiet : Job :=
  { exJob with notifications_enabled := false }

/-- The same job with a 7-day retention policy. -/
def exJobDays : Job :=
  { exJob with retention_policy := "days", retention_days := 7 }

/-- An observation of a device already present in `exDevA`. -/
def exObsA : Observation :=
  { mac_address := "aa:bb:cc:dd:ee:ff", vlan_id := 10, type := "dynamic",
    interface_name := "Gi0/1", host_name := "swA", detected_at := "t" }

/-- An observation of a device new to the inventory. -/
def exObsB : Observation :=
  { mac_address := "00:11:22:33:44:55", vlan_id := 10, type := "dynamic",
    interface_name := "Gi0/2", host_name := "swA", detected_at := "t" }

/-- A known device of job `j` matching the key of `exObsA`. -/
def exDevA : KnownDevice :=
  { id := 100, job_id := "j", mac_address := "aa:bb:cc:dd:ee:ff",
    host_name := "swA", interface_name := "Gi0/9", vlan_id := 7,
    whitelisted := true, first_seen := 5, last_seen := 5, status := "active" }

/-- A database holding job `j` and the single device `exDevA`. -/
def exDb : Db :=
  { jobs := [exJob], job_whitelist := [], known_devices := [exDevA],
    device_history := [], notifications := [], job_runs := [], nextId := 0 }

/-- The same database with an empty inventory. -/
def exDbEmpty : Db :=
  { exDb with known_devices := [] }

/-- An `inactive` device last seen 8 days before clock 1000000. -/
def exDevStale : KnownDevice :=
  { id := 101, job_id := "j", mac_address := "0a:0b:0c:0d:0e:0f",
    host_name := "swA", interface_name := "Gi0/3", vlan_id := 7,
    whitelisted := false, first_seen := 1, last_seen := 308800,
    status := "inactive" }

/-- An `inactive` device last seen 6 days before clock 1000000. -/
def exDevRecent : KnownDevice :=
  { id := 102, job_id := "j", mac_address := "0a:0b:0c:0d:0e:1f",
    host_name := "swA", interface_name := "Gi0/4", vlan_id := 7,
    whitelisted := false, first_seen := 1, last_seen := 481600,
    status := "inactive" }

/-- A history entry kept around to observe that retention ignores it. -/
def exHist : DeviceHistory :=
  { id := 7, job_id := "j", mac_address := "aa:bb:cc:dd:ee:ff",
    host_name := "swA", interface_name := "Gi0/9", vlan_id := 7,
    detected_at := 5 }

/-- Retention fixture: one active device, one stale inactive device, one
recent inactive device. -/
def exDbRet : Db :=
  { exDb with known_devices := [exDevA, exDevStale, exDevRecent],
              device_history := [exHist] }

/-- The row INSERTed for a newly discovered observation, with fresh id
`n`. -/
def newDeviceRow (jobId : String) (wl : List String) (now : Int)
    (d : Observation) (n : Nat) : KnownDevice :=
  { id := n, job_id := jobId, mac_address := d.mac_address,
    host_name := d.host_name, interface_name := d.interface_name,
    vlan_id := d.vlan_id, whitelisted := wl.contains d.mac_address,
    first_seen := now, last_seen := now, status := "active" }

/-- The observation the parser emits for the line
`10 AA:BB:CC:DD:EE:FF dynamic Gi0/1` on host `sw1`. -/
def exObsParsed : Observation :=
  { mac_address := "aa:bb:cc:dd:ee:ff", vlan_id := 10, type := "dynamic",
    interface_name := "Gi0/1", host_name := "sw1", detected_at := "t" }

/-- The inventory produced by reconciling `[exObsA, exObsB]` over
`exDb` with whitelist `["aa:bb:cc:dd:ee:ff"]` at clock 50. -/
def exDbOut : Db :=
  { jobs := [exJob], job_whitelist := [],
    known_devices :=
      [{ exDevA with interface_name := "Gi0/1", vlan_id := 10, last_seen := 50 },
       { id := 1, job_id := "j", mac_address := "00:11:22:33:44:55",
         host_name := "swA", interface_name := "Gi0/2", vlan_id := 10,
         whitelisted := false, first_seen := 50, last_seen := 50,
         status := "active" }],
    device_history :=
      [{ id := 0, job_id := "j", mac_address := "aa:bb:cc:dd:ee:ff",
         host_name := "swA", interface_name := "Gi0/1", vlan_id := 10,
         detected_at := 50 },
       { id := 2, job_id := "j", mac_address := "00:11:22:33:44:55",
         host_name := "swA", interface_name := "Gi0/2", vlan_id := 10,
         detected_at := 50 }],
    notifications :=
      [{ job_id := "j", job_name := "J", type := "information",
         message := "Device aa:bb:cc:dd:ee:ff moved from Gi0/9 to Gi0/1 on swA",
         mac_address := "aa:bb:cc:dd:ee:ff", host_name := "swA",
         interface_name := "Gi0/1" },
       { job_id := "j", job_name := "J", type := "warning",
         message := "Unauthorized device detected: 00:11:22:33:44:55 on swA",
         mac_address := "00:11:22:33:44:55", host_name := "swA",
         interface_name := "Gi0/2" }],
    job_runs := [], nextId := 3 }

/-- The state after the Reconciler's merge-and-mark phase for the batch
`[exObsB]` over `exDb` (no whitelist, clock 50): `exDevA` goes
`inactive`, `exObsB` is inserted. -/
def exDbRecon : Db :=
  { jobs := [exJob], job_whitelist := [],
    known_devices :=
      [{ exDevA with status := "inactive" },
       { id := 0, job_id := "j", mac_address := "00:11:22:33:44:55",
         host_name := "swA", interface_name := "Gi0/2", vlan_id := 10,
         whitelisted := false, first_seen := 50, last_seen := 50,
         status := "active" }],
    device_history :=
      [{ id := 1, job_id := "j", mac_address := "00:11:22:33:44:55",
         host_name := "swA", interface_name := "Gi0/2", vlan_id := 10,
         detected_at := 50 }],
    notifications :=
      [{ job_id := "j", job_name := "J", type := "warning",
         message := "Unauthorized device detected: 00:11:22:33:44:55 on swA",
         mac_address := "00:11:22:33:44:55", host_name := "swA",
         interface_name := "Gi0/2" }],
    job_runs := [], nextId := 2 }

/-! ## Theorems -/

/-- C8: under policy `days(N)` the Retention Enforcer deletes exactly
the `inactive` known devices of the job whose last-seen timestamp is
older than N days relative to the current time, and under every policy
it leaves `active` devices and the device history untouched. -/
theorem retention_policy_exact (jobId : String) (job : Job) (now : Int) (db : Db) :
    (job.retention_policy = "days" →
      (applyRetentionPolicy jobId job now db).known_devices =
        db.known_devices.filter (fun r =>
          !(r.job_id == jobId && r.status == "inactive" &&
            decide (r.last_seen < now - job.retention_days * 86400)))) ∧
    (applyRetentionPolicy jobId job now db).device_history = db.device_history ∧
    ∀ r ∈ db.known_devices, r.status = "active" →
      r ∈ (applyRetentionPolicy jobId job now db).known_devices := by
  refine ⟨?_, ?_, ?_⟩
  · intro hp
    unfold applyRetentionPolicy
    rw [hp]
    simp
  · unfold applyRetentionPolicy
    split
    · rfl
    · split
      · rfl
      · split
        · rfl
        · rfl
  · intro r hr hact
    unfold applyRetentionPolicy
    split
    · exact hr
    · split
      · simp only [List.mem_filter]
        exact ⟨hr, by simp [hact]⟩
      · split
        · simp only [List.mem_filter]
          exact ⟨hr, by simp [hact]⟩
        · exact hr

/-- C8 witness: with `days(7)` and clock 1000000, the inactive device
last seen 8 days ago is deleted, the one last seen 6 days ago and the
active device are retained, and the history is untouched. -/
theorem retention_policy_exact_witness :
    (applyRetentionPolicy "j" exJobDays 1000000 exDbRet).known_devices =
      [exDevA, exDevRecent] ∧
    (applyRetentionPolicy "j" exJobDays 1000000 exDbRet).device_history =
      exDbRet.device_history ∧
    exDevA ∈ (applyRetentionPolicy "j" exJobDays 1000000 exDbRet).known_devices := by
  refine ⟨?_, (retention_policy_exact "j" exJobDays 1000000 exDbRet).2.1, ?_⟩
  · rw [(retention_policy_exact "j" exJobDays 1000000 exDbRet).1 rfl]
    decide
  · exact (retention_policy_exact "j" exJobDays 1000000 exDbRet).2.2 exDevA
      (by decide) rfl

/-- Frame of the retention enforcer: it only ever touches
`known_devices`. -/
theorem applyRetentionPolicy_frame (jobId : String) (job : Job) (now : Int) (db : Db) :
    (applyRetentionPolicy jobId job now db).jobs = db.jobs ∧
    (applyRetentionPolicy jobId job now db).job_whitelist = db.job_whitelist ∧
    (applyRetentionPolicy jobId job now db).device_history = db.device_history ∧
    (applyRetentionPolicy jobId job now db).notifications = db.notifications ∧
    (applyRetentionPolicy jobId job now db).job_runs = db.job_runs ∧
    (applyRetentionPolicy jobId job now db).nextId = db.nextId := by
  unfold applyRetentionPolicy
  split
  · exact ⟨rfl, rfl, rfl, rfl, rfl, rfl⟩
  · split
    · exact ⟨rfl, rfl, rfl, rfl, rfl, rfl⟩
    · split
      · exact ⟨rfl, rfl, rfl, rfl, rfl, rfl⟩
      · exact ⟨rfl, rfl, rfl, rfl, rfl, rfl⟩

/-- Marking unseen devices inactive never touches notifications. -/
theorem markInactive_notifications (jobId : String) :
    ∀ (m : List (String × KnownDevice)) (db : Db),
      (markInactive jobId m db).notifications = db.notifications := by
  intro m
  induction m with
  | nil => intro db; rfl
  | cons e m ih =>
    intro db
    show (markInactive jobId m _).notifications = _
    rw [ih]

/-- With the master notification flag off, one loop iteration adds no
notification. -/
theorem processOne_ok_notifications (jobId : String) (wl : List String) (job : Job)
    (now : Int) (st st1 : LoopSt) (d : Observation)
    (hdis : job.notifications_enabled = false)
    (h : processOne jobId wl job now st d = .ok st1) :
    st1.db.notifications = st.db.notifications := by
  unfold processOne at h
  split at h
  · split at h
    · exact absurd h (by simp)
    · rw [hdis] at h
      simp only [Bool.false_eq_true, if_false] at h
      cases h
      rfl
  · rw [hdis] at h
    simp only [Bool.and_false, Bool.false_and, Bool.false_eq_true, if_false] at h
    cases h
    rfl

/-- With the master notification flag off, the whole device loop adds no
notification, whether it completes or aborts. -/
theorem processLoop_notifications (jobId : String) (wl : List String) (job : Job)
    (now : Int) (hdis : job.notifications_enabled = false) :
    ∀ (ds : List Observation) (st : LoopSt),
      ((processLoop jobId wl job now st ds).1).db.notifications =
        st.db.notifications := by
  intro ds
  induction ds with
  | nil => intro st; rfl
  | cons d rest ih =>
    intro st
    show ((match processOne jobId wl job now st d with
      | .ok st1 => processLoop jobId wl job now st1 rest
      | .error e => (st, some e)).1).db.notifications = _
    cases hpo : processOne jobId wl job now st d with
    | ok st1 =>
      simp only []
      rw [ih st1, processOne_ok_notifications jobId wl job now st st1 d hdis hpo]
    | error e => rfl

/-- C9: if the job's master `notifications_enabled` flag is false, a
reconciliation produces no notification record at all — whatever the
per-kind toggles, the whitelist, the batch and the prior inventory are,
and whether the run completes or aborts. -/
theorem notifications_master_flag_off (jobId : String) (ds : List Observation)
    (wl : List String) (job : Job) (now : Int) (db : Db)
    (hdis : job.notifications_enabled = false) :
    (outDb (processDevices jobId ds wl job now db)).notifications =
      db.notifications := by
  simp only [processDevices, reconcileDevices]
  cases hloop : processLoop jobId wl job now
      { newDevices := 0, warnings := 0,
        map := buildMap (db.known_devices.filter (fun r => r.job_id == jobId)),
        db := db } ds with
  | mk st oerr =>
    have hst : st.db.notifications = db.notifications := by
      have := processLoop_notifications jobId wl job now hdis ds
        { newDevices := 0, warnings := 0,
          map := buildMap (db.known_devices.filter (fun r => r.job_id == jobId)),
          db := db }
      rw [hloop] at this
      exact this
    cases oerr with
    | none =>
      simp only [outDb]
      rw [(applyRetentionPolicy_frame jobId job now _).2.2.2.1,
        markInactive_notifications jobId st.map st.db, hst]
    | some e =>
      simp only [outDb]
      exact hst

/-- C9 witness: a batch with a brand-new unauthorized device and all
per-kind toggles on produces no notification when the master flag is
off. -/
theorem notifications_master_flag_off_witness :
    exJobQuiet.notifications_enabled = false ∧
    (outDb (processDevices "j" [exObsB] [] exJobQuiet 50 exDb)).notifications =
      exDb.notifications :=
  ⟨rfl, notifications_master_flag_off "j" [exObsB] [] exJobQuiet 50 exDb rfl⟩

/-- C5: when a job with at least one enabled host sees every host scan
fail, `runJob` raises `Failed to scan any hosts`, finalizes the job run
as `failed`, returns the job to `active` (recording the attempt in
`last_run`), and performs no reconciliation: inventory, history and
notifications are exactly as before. -/
theorem run_all_hosts_failed (jobId : String)
    (scans : List (Except String (List Observation))) (now : Int) (db : Db)
    (jb : Job)
    (hjob : db.jobs.find? (fun j => j.id == jobId && j.status == "active") = some jb)
    (hne : scans ≠ [])
    (hfail : ∀ s ∈ scans, s.toBool = false) :
    (runJob jobId scans now db).2 = some "Failed to scan any hosts" ∧
    (runJob jobId scans now db).1.known_devices = db.known_devices ∧
    (runJob jobId scans now db).1.device_history = db.device_history ∧
    (runJob jobId scans now db).1.notifications = db.notifications ∧
    ({ id := db.nextId, job_id := jobId, status := "failed",
       hosts_scanned := scans.length, devices_found := 0, new_devices := 0,
       warnings := 0, error_message := some "Failed to scan any hosts" } : JobRun) ∈
      (runJob jobId scans now db).1.job_runs ∧
    (runJob jobId scans now db).1.jobs = db.jobs.map (fun j =>
      if j.id == jobId then { j with status := "active", last_run := some now }
      else j) := by
  have hlen : ¬ scans.length = 0 := fun h => hne (List.length_eq_zero.mp h)
  have hcnt : scans.countP (fun s => s.toBool) = 0 :=
    List.countP_eq_zero.mpr (fun s hs => by simp [hfail s hs])
  simp only [runJob, hjob, hlen, if_false, hcnt, if_true, failRun]
  refine ⟨trivial, trivial, trivial, trivial, ?_, ?_⟩
  · rw [List.map_append]
    refine List.mem_append_right _ ?_
    simp
  · rw [List.map_map]
    refine List.map_congr_left (fun j _ => ?_)
    simp only [Function.comp_apply]
    cases hj : j.id == jobId with
    | true => simp [hj]
    | false => simp [hj]

/-- C5 witness: one enabled host whose scan fails; the run fails, the
inventory is untouched, and the failed run record is present. -/
theorem run_all_hosts_failed_witness :
    (runJob "j" [.error "down"] 50 exDb).2 = some "Failed to scan any hosts" ∧
    (runJob "j" [.error "down"] 50 exDb).1.known_devices = exDb.known_devices ∧
    ({ id := exDb.nextId, job_id := "j", status := "failed", hosts_scanned := 1,
       devices_found := 0, new_devices := 0, warnings := 0,
       error_message := some "Failed to scan any hosts" } : JobRun) ∈
      (runJob "j" [.error "down"] 50 exDb).1.job_runs :=
  have h := run_all_hosts_failed "j" [.error "down"] 50 exDb exJob rfl
    (List.cons_ne_nil _ _)
    (fun s hs => by rw [List.mem_singleton] at hs; subst hs; rfl)
  ⟨h.1, h.2.1, h.2.2.2.2.1⟩

/-- C3: reconciliation is not atomic.  On the concrete batch that
observes the same new device twice, the second INSERT violates the
`known_devices` UNIQUE constraint and the run aborts — yet the first
iteration's inventory insert, history row and notification remain
committed while the job run is finalized `failed`: neither "all applied"
nor "none applied". -/
theorem reconciliation_not_atomic :
    (runJob "j" [.ok [exObsB, exObsB]] 50 exDbEmpty).2 =
      some "UNIQUE constraint failed: known_devices" ∧
    (runJob "j" [.ok [exObsB, exObsB]] 50 exDbEmpty).1.job_runs.map
      (fun r => r.status) = ["failed"] ∧
    (runJob "j" [.ok [exObsB, exObsB]] 50 exDbEmpty).1.known_devices ≠
      exDbEmpty.known_devices ∧
    (runJob "j" [.ok [exObsB, exObsB]] 50 exDbEmpty).1.device_history ≠
      exDbEmpty.device_history := by
  refine ⟨rfl, rfl, ?_, ?_⟩ <;> decide

/-- C2 counterexample: a batch repeating one (MAC, host) key does not
resolve "last one wins": the Reconciler aborts with a UNIQUE-constraint
error — both when the key was already inventoried (`exObsA` over `exDb`)
and when it is brand new (`exObsB` over an empty inventory). -/
theorem duplicate_key_aborts_counterexample :
    errOf (processDevices "j" [exObsA, exObsA] [] exJob 50 exDb) =
      some "UNIQUE constraint failed: known_devices" ∧
    errOf (processDevices "j" [exObsB, exObsB] [] exJob 50 exDbEmpty) =
      some "UNIQUE constraint failed: known_devices" :=
  ⟨rfl, rfl⟩

/-- JavaScript `toLowerCase` never yields an ASCII uppercase letter. -/
theorem toLower_isUpper_false (c : Char) : (Char.toLower c).isUpper = false := by
  show ((let n := c.toNat;
      if n ≥ 65 ∧ n ≤ 90 then Char.ofNat (n + 32) else c)).isUpper = false
  simp only []
  by_cases h : c.toNat ≥ 65 ∧ c.toNat ≤ 90
  · rw [if_pos h]
    obtain ⟨h1, h2⟩ := h
    set n := c.toNat with hn
    interval_cases n <;> decide
  · rw [if_neg h]
    rw [not_and_or] at h
    show (decide (c.val ≥ 65) && decide (c.val ≤ 90)) = false
    rw [Bool.and_eq_false_iff]
    rcases h with h | h
    · left
      simp only [decide_eq_false_iff_not]
      intro hc
      exact h (show 65 ≤ c.toNat from hc)
    · right
      simp only [decide_eq_false_iff_not]
      intro hc
      exact h (show c.toNat ≤ 90 from hc)

/-- Inversion of one parser line: an emitted observation carries a MAC
that passes `isValidMAC` and contains no uppercase letter. -/
theorem parseLine_valid (hostName now : String) (line : List Char) (d : Observation)
    (h : parseLine hostName now line = some d) :
    isValidMAC d.mac_address = true ∧
    d.mac_address.data.all (fun c => !c.isUpper) = true := by
  simp only [parseLine] at h
  split at h
  · exact absurd h (by simp)
  · split at h
    · split at h
      · split at h
        · cases h
          refine ⟨by assumption, ?_⟩
          simp only [List.all_eq_true]
          intro c hc
          rw [List.mem_map] at hc
          obtain ⟨c0, _, rfl⟩ := hc
          simp [toLower_isUpper_false c0]
        · exact absurd h (by simp)
      · exact absurd h (by simp)
    · exact absurd h (by simp)

/-- C4 (amended): every observation emitted by the parser has a MAC
matching the canonical six-group colon-or-hyphen pattern and is fully
lowercased before emission (the separators are kept exactly as they
appeared in the line; the VLAN is produced by `parseInt`, so a line
whose VLAN token has no leading integer emits nothing). -/
theorem parser_macs_valid_and_lowercase (output hostName now : String) :
    ∀ d ∈ parseMacAddressTable output hostName now,
      isValidMAC d.mac_address = true ∧
      d.mac_address.data.all (fun c => !c.isUpper) = true := by
  intro d hd
  rw [parseMacAddressTable, List.mem_filterMap] at hd
  obtain ⟨line, _, hline⟩ := hd
  exact parseLine_valid hostName now line d hline

/-- C4 witness: the line `10 AA:BB:CC:DD:EE:FF dynamic Gi0/1` emits an
observation whose MAC is valid and lowercase. -/
theorem parser_macs_valid_and_lowercase_witness :
    isValidMAC exObsParsed.mac_address = true ∧
    exObsParsed.mac_address.data.all (fun c => !c.isUpper) = true :=
  parser_macs_valid_and_lowercase "10 AA:BB:CC:DD:EE:FF dynamic Gi0/1" "sw1" "t"
    exObsParsed (by decide)

/-- C4 counterexample: a hyphen-separated MAC is accepted and emitted
with its hyphens kept — only lowercased, not normalized to colons. -/
theorem parser_keeps_hyphens_counterexample :
    (parseMacAddressTable "1 AA-BB-CC-DD-EE-FF dynamic Gi0/1" "sw1" "t").map
      (fun d => d.mac_address) = ["aa-bb-cc-dd-ee-ff"] ∧
    ':' ∉ "aa-bb-cc-dd-ee-ff".data := by
  refine ⟨rfl, by decide⟩

/-! ### JavaScript-map lemmas -/

/-- Every entry of `mapSet m k v` is either the new binding or an entry
of `m`. -/
theorem mapSet_entries (m : List (String × KnownDevice)) (k : String)
    (v : KnownDevice) : ∀ e ∈ mapSet m k v, e = (k, v) ∨ e ∈ m := by
  intro e he
  unfold mapSet at he
  split at he
  · rw [List.mem_map] at he
    obtain ⟨e0, he0, rfl⟩ := he
    by_cases h : (e0.1 == k) = true
    · rw [if_pos h]; exact Or.inl rfl
    · rw [if_neg h]; exact Or.inr he0
  · rw [List.mem_append] at he
    rcases he with he | he
    · exact Or.inr he
    · rw [List.mem_singleton] at he; exact Or.inl he

/-- The binding just set is present. -/
theorem mapSet_self_mem (m : List (String × KnownDevice)) (k : String)
    (v : KnownDevice) : (k, v) ∈ mapSet m k v := by
  unfold mapSet
  split
  · next h =>
    rw [List.any_eq_true] at h
    obtain ⟨e0, he0, hk⟩ := h
    rw [List.mem_map]
    exact ⟨e0, he0, by rw [if_pos hk]⟩
  · exact List.mem_append_right _ (List.mem_singleton.mpr rfl)

/-- `mapSet` does not drop keys. -/
theorem mapSet_preserves_key (m : List (String × KnownDevice)) (k : String)
    (v : KnownDevice) (k' : String) (h : ∃ w, (k', w) ∈ m) :
    ∃ w, (k', w) ∈ mapSet m k v := by
  by_cases hk : k' = k
  · exact ⟨v, hk ▸ mapSet_self_mem m k v⟩
  · obtain ⟨w, hw⟩ := h
    unfold mapSet
    split
    · refine ⟨w, ?_⟩
      rw [List.mem_map]
      refine ⟨(k', w), hw, ?_⟩
      rw [if_neg (by simpa using hk)]
    · exact ⟨w, List.mem_append_left _ hw⟩

/-- Entries of the fold building the map all come from the accumulator
or from the rows. -/
theorem foldl_mapSet_entries (rows : List KnownDevice) :
    ∀ (acc : List (String × KnownDevice)) e,
      e ∈ rows.foldl (fun m r => mapSet m (rowKey r) r) acc →
      e ∈ acc ∨ ∃ r ∈ rows, e = (rowKey r, r) := by
  induction rows with
  | nil => intro acc e he; exact Or.inl he
  | cons r rows ih =>
    intro acc e he
    rcases ih (mapSet acc (rowKey r) r) e he with hacc | hr
    · rcases mapSet_entries _ _ _ _ hacc with h | h
      · exact Or.inr ⟨r, List.mem_cons_self r rows, h⟩
      · exact Or.inl h
    · obtain ⟨r1, hr1, he1⟩ := hr
      exact Or.inr ⟨r1, List.mem_cons_of_mem r hr1, he1⟩

/-- The fold building the map keeps every key of the accumulator. -/
theorem foldl_mapSet_preserves_key (rows : List KnownDevice) :
    ∀ (acc : List (String × KnownDevice)) (k : String),
      (∃ w, (k, w) ∈ acc) →
      ∃ w, (k, w) ∈ rows.foldl (fun m r => mapSet m (rowKey r) r) acc := by
  induction rows with
  | nil => intro acc k h; exact h
  | cons r rows ih =>
    intro acc k h
    exact ih _ k (mapSet_preserves_key acc (rowKey r) r k h)

/-- Every entry of the built map is a row under its own key. -/
theorem buildMap_entries (rows : List KnownDevice) (e : String × KnownDevice)
    (he : e ∈ buildMap rows) : ∃ r ∈ rows, e = (rowKey r, r) := by
  rcases foldl_mapSet_entries rows [] e he with h | h
  · cases h
  · exact h

/-- Every row's key has an entry after the fold building the map,
whatever the accumulator. -/
theorem foldl_mapSet_key_mem (rows : List KnownDevice) :
    ∀ (acc : List (String × KnownDevice)) (r : KnownDevice), r ∈ rows →
      ∃ w, (rowKey r, w) ∈ rows.foldl (fun m r => mapSet m (rowKey r) r) acc := by
  induction rows with
  | nil => intro acc r hr; cases hr
  | cons r0 rows ih =>
    intro acc r hr
    rcases List.mem_cons.mp hr with rfl | hr0
    · exact foldl_mapSet_preserves_key rows _ (rowKey r)
        ⟨r, mapSet_self_mem acc (rowKey r) r⟩
    · exact ih _ r hr0

/-- Every row's key has an entry in the built map. -/
theorem buildMap_key_mem (rows : List KnownDevice) (r : KnownDevice)
    (hr : r ∈ rows) : ∃ w, (rowKey r, w) ∈ buildMap rows :=
  foldl_mapSet_key_mem rows [] r hr

/-- `mapGet` misses exactly when no entry has the key. -/
theorem mapGet_eq_none_iff (m : List (String × KnownDevice)) (k : String) :
    mapGet m k = none ↔ ∀ e ∈ m, e.1 ≠ k := by
  unfold mapGet
  rw [Option.map_eq_none', List.find?_eq_none]
  constructor
  · intro h e he
    have := h e he
    simpa using this
  · intro h e he
    simpa using h e he

/-- A present key makes `mapGet` hit. -/
theorem mapGet_isSome_of_mem (m : List (String × KnownDevice)) (k : String)
    (w : KnownDevice) (h : (k, w) ∈ m) : ∃ v, mapGet m k = some v := by
  unfold mapGet
  cases hf : m.find? (fun e => e.1 == k) with
  | some e => exact ⟨e.2, rfl⟩
  | none =>
    rw [List.find?_eq_none] at hf
    exact absurd (by simp : (((k, w) : String × KnownDevice).1 == k) = true)
      (hf (k, w) h)

/-- A `mapGet` hit returns the value of an entry carrying the key. -/
theorem mapGet_eq_some_mem (m : List (String × KnownDevice)) (k : String)
    (v : KnownDevice) (h : mapGet m k = some v) : (k, v) ∈ m := by
  unfold mapGet at h
  cases hf : m.find? (fun e => e.1 == k) with
  | none => rw [hf] at h; cases h
  | some e =>
    rw [hf] at h
    cases h
    have hm := List.mem_of_find?_eq_some hf
    have hk := List.find?_some hf
    have : e.1 = k := by simpa using hk
    have he : e = (k, e.2) := by
      cases e; simp_all
    rw [← he]
    exact hm

/-! ### Forall₂ and split helpers -/

/-- A left element of a `Forall₂` has a related right partner. -/
theorem forall2_mem_left {α β : Type} {R : α → β → Prop} {l1 : List α}
    {l2 : List β} (h : List.Forall₂ R l1 l2) :
    ∀ a ∈ l1, ∃ b ∈ l2, R a b := by
  induction h with
  | nil => intro a ha; cases ha
  | cons hr _ ih =>
    intro a ha
    rcases List.mem_cons.mp ha with rfl | ha0
    · exact ⟨_, List.mem_cons_self _ _, hr⟩
    · obtain ⟨b, hb, hrb⟩ := ih a ha0
      exact ⟨b, List.mem_cons_of_mem _ hb, hrb⟩

/-- A right element of a `Forall₂` has a related left partner. -/
theorem forall2_mem_right {α β : Type} {R : α → β → Prop} {l1 : List α}
    {l2 : List β} (h : List.Forall₂ R l1 l2) :
    ∀ b ∈ l2, ∃ a ∈ l1, R a b := by
  induction h with
  | nil => intro b hb; cases hb
  | cons hr _ ih =>
    intro b hb
    rcases List.mem_cons.mp hb with rfl | hb0
    · exact ⟨_, List.mem_cons_self _ _, hr⟩
    · obtain ⟨a, ha, hra⟩ := ih b hb0
      exact ⟨a, List.mem_cons_of_mem _ ha, hra⟩

/-- The first element of a list satisfying a decidable predicate splits
the list. -/
theorem exists_first_match {α : Type} (P : α → Prop) [DecidablePred P] :
    ∀ (l : List α), (∃ x ∈ l, P x) →
      ∃ p y rest, l = p ++ y :: rest ∧ P y ∧ ∀ z ∈ p, ¬ P z := by
  intro l
  induction l with
  | nil => intro h; obtain ⟨x, hx, _⟩ := h; cases hx
  | cons a l ih =>
    intro h
    by_cases ha : P a
    · exact ⟨[], a, l, rfl, ha, fun z hz => absurd hz (List.not_mem_nil z)⟩
    · obtain ⟨x, hx, hPx⟩ := h
      have hx0 : x ∈ l := by
        rcases List.mem_cons.mp hx with rfl | h0
        · exact absurd hPx ha
        · exact h0
      obtain ⟨p, y, rest, hl, hPy, hp⟩ := ih ⟨x, hx0, hPx⟩
      refine ⟨a :: p, y, rest, by rw [hl, List.cons_append], hPy, ?_⟩
      intro z hz
      rcases List.mem_cons.mp hz with rfl | hz0
      · exact ha
      · exact hp z hz0

/-- A list whose key image is not `Nodup` splits into a key-distinct
prefix followed by an element repeating one of the prefix keys. -/
theorem exists_dup_split {α β : Type} [DecidableEq β] (f : α → β) :
    ∀ (l : List α), ¬ (l.map f).Nodup →
      ∃ p x rest, l = p ++ x :: rest ∧ (p.map f).Nodup ∧ f x ∈ p.map f := by
  intro l
  induction l with
  | nil => intro h; exact absurd List.nodup_nil h
  | cons a l ih =>
    intro h
    by_cases hp : (l.map f).Nodup
    · have hfa : f a ∈ l.map f := by
        by_contra hno
        exact h (by rw [List.map_cons]; exact List.nodup_cons.mpr ⟨hno, hp⟩)
      rw [List.mem_map] at hfa
      obtain ⟨x0, hx0, hfx0⟩ := hfa
      obtain ⟨p1, y, r1, hl, hPy, hfirst⟩ :=
        exists_first_match (fun z => f z = f a) l ⟨x0, hx0, hfx0⟩
      refine ⟨a :: p1, y, r1, by rw [hl, List.cons_append], ?_, ?_⟩
      · rw [List.map_cons]
        refine List.nodup_cons.mpr ⟨?_, ?_⟩
        · rw [List.mem_map]
          rintro ⟨z, hz, hfz⟩
          exact hfirst z hz hfz
        · exact hp.sublist (by
            rw [hl, List.map_append]
            exact List.sublist_append_left _ _)
      · rw [hPy, List.map_cons]
        exact List.mem_cons_self _ _
    · obtain ⟨p0, x, rest, hl, hnd, hfx⟩ := ih hp
      by_cases hfa : f a ∈ p0.map f
      · rw [List.mem_map] at hfa
        obtain ⟨z0, hz0, hfz0⟩ := hfa
        obtain ⟨p1, y, r1, hp0, hPy, hfirst⟩ :=
          exists_first_match (fun z => f z = f a) p0 ⟨z0, hz0, hfz0⟩
        refine ⟨a :: p1, y, r1 ++ x :: rest, ?_, ?_, ?_⟩
        · rw [hl, hp0]
          simp [List.append_assoc]
        · rw [List.map_cons]
          refine List.nodup_cons.mpr ⟨?_, ?_⟩
          · rw [List.mem_map]
            rintro ⟨z, hz, hfz⟩
            exact hfirst z hz hfz
          · refine hnd.sublist ?_
            rw [hp0, List.map_append]
            exact List.sublist_append_left _ _
        · rw [hPy, List.map_cons]
          exact List.mem_cons_self _ _
      · refine ⟨a :: p0, x, rest, by rw [hl, List.cons_append], ?_, ?_⟩
        · rw [List.map_cons]
          exact List.nodup_cons.mpr ⟨hfa, hnd⟩
        · rw [List.map_cons]
          exact List.mem_cons_of_mem _ hfx

/-! ### Key-string injectivity for fixed-width MACs -/

/-- For MAC strings of the canonical 17-character width, the
`` `${mac}:${host}` `` key is injective: equal keys mean equal MAC and
equal host.  (This is the guard against the separator-collision caveat
the key concatenation would otherwise have.) -/
theorem deviceKeyStr_inj (m1 h1 m2 h2 : String) (hl1 : m1.length = 17)
    (hl2 : m2.length = 17) (h : deviceKeyStr m1 h1 = deviceKeyStr m2 h2) :
    m1 = m2 ∧ h1 = h2 := by
  have hd : m1.data ++ ':' :: h1.data = m2.data ++ ':' :: h2.data := by
    have h0 := congrArg String.data h
    simpa [deviceKeyStr, String.data_append] using h0
  have hlen : m1.data.length = m2.data.length := by
    have e1 : m1.data.length = 17 := hl1
    have e2 : m2.data.length = 17 := hl2
    rw [e1, e2]
  obtain ⟨hm, hh⟩ := List.append_inj hd hlen
  refine ⟨?_, ?_⟩
  · cases m1; cases m2
    exact congrArg (fun dd => (⟨dd⟩ : String)) (by simpa using hm)
  · cases h1; cases h2
    injection hh with hhead htail
    exact congrArg (fun dd => (⟨dd⟩ : String)) htail

/-! ### Semantics of one loop iteration -/

/-- Existing-key iteration: counters stay, the key leaves the map, and
every matching row of the job is updated in place. -/
theorem processOne_existing (jobId : String) (wl : List String) (job : Job)
    (now : Int) (st : LoopSt) (d : Observation) (v : KnownDevice)
    (hget : mapGet st.map (obsKey d) = some v) :
    ∃ st1, processOne jobId wl job now st d = .ok st1 ∧
      st1.newDevices = st.newDevices ∧
      st1.map = mapDelete st.map (obsKey d) ∧
      st1.db.known_devices = st.db.known_devices.map (fun r =>
        if r.job_id == jobId && r.mac_address == d.mac_address &&
            r.host_name == d.host_name then activeUpd now d r else r) ∧
      st1.db.jobs = st.db.jobs ∧ st1.db.job_runs = st.db.job_runs ∧
      st1.db.job_whitelist = st.db.job_whitelist := by
  simp only [processOne, hget]
  refine ⟨_, rfl, rfl, rfl, ?_, ?_, ?_, ?_⟩
  · show ((if _ then createNotification st.db _ else st.db)).known_devices.map _ = _
    split <;> rfl
  · show ((if _ then createNotification st.db _ else st.db)).jobs = _
    split <;> rfl
  · show ((if _ then createNotification st.db _ else st.db)).job_runs = _
    split <;> rfl
  · show ((if _ then createNotification st.db _ else st.db)).job_whitelist = _
    split <;> rfl

/-- New-key iteration without a conflicting row: the counter bumps, the
map stays, and exactly the freshly built row is appended. -/
theorem processOne_new (jobId : String) (wl : List String) (job : Job)
    (now : Int) (st : LoopSt) (d : Observation)
    (hget : mapGet st.map (obsKey d) = none)
    (hins : st.db.known_devices.any (fun r =>
      r.job_id == jobId && r.mac_address == d.mac_address &&
      r.host_name == d.host_name) = false) :
    ∃ st1, processOne jobId wl job now st d = .ok st1 ∧
      st1.newDevices = st.newDevices + 1 ∧
      st1.map = st.map ∧
      st1.db.known_devices = st.db.known_devices ++
        [newDeviceRow jobId wl now d st.db.nextId] ∧
      st1.db.jobs = st.db.jobs ∧ st1.db.job_runs = st.db.job_runs ∧
      st1.db.job_whitelist = st.db.job_whitelist := by
  simp only [processOne, hget, hins, Bool.false_eq_true, if_false]
  refine ⟨_, rfl, rfl, rfl, ?_, ?_, ?_, ?_⟩ <;>
    ((repeat' split) <;> rfl)

/-- New-key iteration with a conflicting row: the INSERT violates the
UNIQUE constraint. -/
theorem processOne_error (jobId : String) (wl : List String) (job : Job)
    (now : Int) (st : LoopSt) (d : Observation)
    (hget : mapGet st.map (obsKey d) = none)
    (hins : st.db.known_devices.any (fun r =>
      r.job_id == jobId && r.mac_address == d.mac_address &&
      r.host_name == d.host_name) = true) :
    processOne jobId wl job now st d =
      .error "UNIQUE constraint failed: known_devices" := by
  simp only [processOne, hget, hins, if_true]

/-- `contains` on a `LawfulBEq` carrier is list membership. -/
theorem contains_iff_mem {α : Type} [BEq α] [LawfulBEq α] {l : List α} {a : α} :
    l.contains a = true ↔ a ∈ l := by
  rw [List.contains_eq_any_beq, List.any_eq_true]
  constructor
  · rintro ⟨x, hx, hb⟩
    rw [show a = x from by simpa using hb]
    exact hx
  · intro h
    exact ⟨a, h, by simp⟩

/-- `midRow` keeps every field except interface, VLAN, last-seen and
status. -/
theorem midRow_fields (jobId : String) (now : Int) (p : List Observation)
    (r : KnownDevice) :
    (midRow jobId now p r).job_id = r.job_id ∧
    (midRow jobId now p r).mac_address = r.mac_address ∧
    (midRow jobId now p r).host_name = r.host_name ∧
    (midRow jobId now p r).id = r.id ∧
    (midRow jobId now p r).whitelisted = r.whitelisted ∧
    (midRow jobId now p r).first_seen = r.first_seen := by
  unfold midRow
  split
  · split <;> exact ⟨rfl, rfl, rfl, rfl, rfl, rfl⟩
  · exact ⟨rfl, rfl, rfl, rfl, rfl, rfl⟩

/-- Pairs determine keys. -/
theorem rowKey_eq_obsKey (r : KnownDevice) (d : Observation)
    (hm : r.mac_address = d.mac_address) (hh : r.host_name = d.host_name) :
    rowKey r = obsKey d := by
  unfold rowKey obsKey deviceKeyStr
  rw [hm, hh]

/-- Extending the processed prefix by an observation matching no field
triple of `r` leaves `midRow` unchanged on `r`. -/
theorem midRow_append_not_matching (jobId : String) (now : Int)
    (p : List Observation) (d : Observation) (r : KnownDevice)
    (hno : ¬(r.job_id = jobId ∧ r.mac_address = d.mac_address ∧
      r.host_name = d.host_name)) :
    midRow jobId now (p ++ [d]) r = midRow jobId now p r := by
  unfold midRow
  by_cases hj : r.job_id = jobId
  · have hpred : (r.mac_address == d.mac_address &&
        r.host_name == d.host_name) = false := by
      rw [Bool.and_eq_false_iff]
      by_cases hm : r.mac_address = d.mac_address
      · right
        simp only [beq_eq_false_iff_ne, ne_eq]
        exact fun hh => hno ⟨hj, hm, hh⟩
      · left
        simpa using hm
    rw [show obsFor (p ++ [d]) r = obsFor p r from ?_]
    · unfold obsFor
      rw [List.find?_append]
      cases hfp : List.find? (fun x => r.mac_address == x.mac_address &&
          r.host_name == x.host_name) p with
      | some y => rfl
      | none =>
        show Option.or none _ = none
        rw [Option.none_or]
        rw [List.find?_cons_of_neg _ (by rw [hpred]; exact Bool.false_ne_true)]
        rfl
  · rw [if_neg (by simpa using hj), if_neg (by simpa using hj)]

/-- The UPDATE applied while processing `d` turns the prefix-state of a
pre-existing row into its state for the prefix extended by `d`, as long
as `d`'s key has not been processed before. -/
theorem upd_midRow_pointwise (jobId : String) (now : Int) (p : List Observation)
    (d : Observation) (r : KnownDevice) (hnew : obsKey d ∉ p.map obsKey) :
    (if (midRow jobId now p r).job_id == jobId &&
        (midRow jobId now p r).mac_address == d.mac_address &&
        (midRow jobId now p r).host_name == d.host_name then
      activeUpd now d (midRow jobId now p r) else midRow jobId now p r) =
    midRow jobId now (p ++ [d]) r := by
  obtain ⟨hfj, hfm, hfh, _, _, _⟩ := midRow_fields jobId now p r
  by_cases hj : r.job_id = jobId
  · by_cases hpair : r.mac_address = d.mac_address ∧ r.host_name = d.host_name
    · obtain ⟨hm, hh⟩ := hpair
      have hforp : obsFor p r = none := by
        rw [obsFor, List.find?_eq_none]
        intro x hx hpred
        rw [Bool.and_eq_true, beq_iff_eq, beq_iff_eq] at hpred
        refine hnew ?_
        rw [List.mem_map]
        refine ⟨x, hx, ?_⟩
        rw [← rowKey_eq_obsKey r x hpred.1 hpred.2, rowKey_eq_obsKey r d hm hh]
      have hmidr : midRow jobId now p r = r := by
        unfold midRow
        rw [if_pos (by simpa using hj)]
        rw [hforp]
      have hford : obsFor (p ++ [d]) r = some d := by
        rw [obsFor, List.find?_append]
        rw [show List.find? (fun x => r.mac_address == x.mac_address &&
          r.host_name == x.host_name) p = none from hforp]
        rw [Option.none_or]
        rw [List.find?_cons_of_pos _ (by simp [hm, hh])]
      rw [hmidr]
      rw [if_pos (by simp [hj, hm, hh])]
      show activeUpd now d r = midRow jobId now (p ++ [d]) r
      unfold midRow
      rw [if_pos (by simpa using hj), hford]
    · have hcond : ((midRow jobId now p r).job_id == jobId &&
          (midRow jobId now p r).mac_address == d.mac_address &&
          (midRow jobId now p r).host_name == d.host_name) = false := by
        rw [hfj, hfm, hfh, Bool.and_eq_false_iff, Bool.and_eq_false_iff]
        by_cases hm : r.mac_address = d.mac_address
        · right
          simp only [beq_eq_false_iff_ne, ne_eq]
          exact fun hh => hpair ⟨hm, hh⟩
        · left
          right
          simpa using hm
      rw [hcond]
      simp only [Bool.false_eq_true, if_false]
      rw [midRow_append_not_matching jobId now p d r
        (fun hc => hpair ⟨hc.2.1, hc.2.2⟩)]
  · have hcond : ((midRow jobId now p r).job_id == jobId &&
        (midRow jobId now p r).mac_address == d.mac_address &&
        (midRow jobId now p r).host_name == d.host_name) = false := by
      rw [hfj, Bool.and_eq_false_iff, Bool.and_eq_false_iff]
      left
      left
      simpa using hj
    rw [hcond]
    simp only [Bool.false_eq_true, if_false]
    rw [midRow_append_not_matching jobId now p d r (fun hc => hj hc.1)]

/-- Negated `contains` is non-membership. -/
theorem contains_eq_false_iff {α : Type} [BEq α] [LawfulBEq α] {l : List α}
    {a : α} : l.contains a = false ↔ a ∉ l := by
  constructor
  · intro h hm
    rw [contains_iff_mem.mpr hm] at h
    cases h
  · intro h
    cases hc : l.contains a
    · rfl
    · exact absurd (contains_iff_mem.mp hc) h

/-- Splitting a `contains` over an appended singleton. -/
theorem not_contains_append_singleton {α : Type} [BEq α] [LawfulBEq α]
    (l : List α) (k a : α) :
    (!(l ++ [k]).contains a) = ((a != k) && !(l.contains a)) := by
  by_cases h1 : a = k
  · subst h1
    rw [contains_iff_mem.mpr (List.mem_append_right _ (List.mem_singleton.mpr rfl))]
    simp
  · by_cases h2 : a ∈ l
    · rw [contains_iff_mem.mpr (List.mem_append_left _ h2),
        contains_iff_mem.mpr h2]
      simp
    · rw [contains_eq_false_iff.mpr h2, contains_eq_false_iff.mpr (by
        intro hc
        rcases List.mem_append.mp hc with h | h
        · exact h2 h
        · exact h1 (List.mem_singleton.mp h))]
      simp [bne_iff_ne, h1]

/-- `Forall₂` respects appending. -/
theorem forall2_append {α β : Type} {R : α → β → Prop} {l1 u1 : List α}
    {l2 u2 : List β} (h1 : List.Forall₂ R l1 l2) (h2 : List.Forall₂ R u1 u2) :
    List.Forall₂ R (l1 ++ u1) (l2 ++ u2) := by
  induction h1 with
  | nil => simpa using h2
  | cons hr hrs ih => exact List.Forall₂.cons hr ih

/-- Invariant step: processing one observation whose key is fresh in
the batch succeeds and re-establishes the loop invariant. -/
theorem processOne_step (jobId : String) (wl : List String) (job : Job) (now : Int)
    (db0 : Db) (p : List Observation) (d : Observation) (st : LoopSt)
    (inv : LoopInv jobId wl now db0 p st)
    (hnew : obsKey d ∉ p.map obsKey) :
    ∃ st1, processOne jobId wl job now st d = .ok st1 ∧
      LoopInv jobId wl now db0 (p ++ [d]) st1 := by
  obtain ⟨ins, hkd, hfa⟩ := inv.kd_eq
  by_cases hk : obsKey d ∈ initKeys jobId db0
  · -- the key is already inventoried: UPDATE path
    obtain ⟨r0, hr0, hr0k⟩ : ∃ r ∈ jobRows jobId db0, rowKey r = obsKey d := by
      rw [initKeys, List.mem_map] at hk
      exact hk
    obtain ⟨w0, hw0⟩ := buildMap_key_mem _ r0 hr0
    rw [hr0k] at hw0
    have hmem : (obsKey d, w0) ∈ st.map := by
      rw [inv.map_eq, List.mem_filter]
      refine ⟨hw0, ?_⟩
      show (!(p.map obsKey).contains (obsKey d)) = true
      rw [contains_eq_false_iff.mpr hnew]
      rfl
    obtain ⟨v, hv⟩ := mapGet_isSome_of_mem _ _ _ hmem
    obtain ⟨st1, hpo, hn1, hm1, hkd1, hj1, hr1, hwl1⟩ :=
      processOne_existing jobId wl job now st d v hv
    have hknew : isNewObs jobId db0 d = false := by
      rw [isNewObs, contains_iff_mem.mpr hk]
      rfl
    refine ⟨st1, hpo, ?_⟩
    constructor
    · rw [hj1, inv.jobs_eq]
    · rw [hr1, inv.runs_eq]
    · rw [hwl1, inv.wl_eq]
    · rw [hm1, inv.map_eq, mapDelete, List.filter_filter]
      refine (List.filter_congr ?_).symm
      intro e _
      rw [List.map_append, show [d].map obsKey = [obsKey d] from rfl,
        not_contains_append_singleton]
    · refine ⟨ins, ?_, ?_⟩
      · rw [hkd1, hkd, List.map_append, List.map_map]
        congr 1
        · exact List.map_congr_left (fun r _ =>
            upd_midRow_pointwise jobId now p d r hnew)
        · calc ins.map _ = ins.map id := List.map_congr_left (fun r1 h1 => ?_)
            _ = ins := List.map_id ins
          obtain ⟨d1, hd1, hsh⟩ := forall2_mem_right hfa r1 h1
          show (if r1.job_id == jobId && r1.mac_address == d.mac_address &&
              r1.host_name == d.host_name then activeUpd now d r1 else r1) = r1
          rw [if_neg ?_]
          intro hc
          rw [Bool.and_eq_true, Bool.and_eq_true, beq_iff_eq, beq_iff_eq,
            beq_iff_eq] at hc
          obtain ⟨⟨_, hcm⟩, hch⟩ := hc
          refine hnew ?_
          rw [List.mem_map]
          refine ⟨d1, List.mem_of_mem_filter hd1, ?_⟩
          show deviceKeyStr d1.mac_address d1.host_name =
            deviceKeyStr d.mac_address d.host_name
          rw [← hsh.2.1, ← hsh.2.2.1, hcm, hch]
      · rw [List.filter_append,
          show List.filter (isNewObs jobId db0) [d] = [] from by
            simp [List.filter_cons, hknew],
          List.append_nil]
        exact hfa
    · rw [hn1, inv.new_eq, List.countP_append,
        show List.countP (isNewObs jobId db0) [d] = 0 from by
          simp [List.countP_cons, hknew]]
      exact (Nat.add_zero _).symm
  · -- fresh key: INSERT path
    have hknewT : isNewObs jobId db0 d = true := by
      rw [isNewObs, contains_eq_false_iff.mpr hk]
      rfl
    have hget : mapGet st.map (obsKey d) = none := by
      rw [mapGet_eq_none_iff]
      intro e he hek
      rw [inv.map_eq, List.mem_filter] at he
      obtain ⟨r1, hr1, he1⟩ := buildMap_entries _ e he.1
      refine hk ?_
      rw [initKeys, List.mem_map]
      exact ⟨r1, hr1, by rw [← hek, he1]⟩
    have hins : st.db.known_devices.any (fun r =>
        r.job_id == jobId && r.mac_address == d.mac_address &&
        r.host_name == d.host_name) = false := by
      cases hc : st.db.known_devices.any (fun r =>
        r.job_id == jobId && r.mac_address == d.mac_address &&
        r.host_name == d.host_name) with
      | false => rfl
      | true =>
        exfalso
        rw [List.any_eq_true] at hc
        obtain ⟨r1, hr1m, hcond⟩ := hc
        rw [Bool.and_eq_true, Bool.and_eq_true, beq_iff_eq, beq_iff_eq,
          beq_iff_eq] at hcond
        obtain ⟨⟨hcj, hcm⟩, hch⟩ := hcond
        rw [hkd] at hr1m
        rcases List.mem_append.mp hr1m with hmid | hins0
        · rw [List.mem_map] at hmid
          obtain ⟨r2, hr2, hr2e⟩ := hmid
          obtain ⟨f1, f2, f3, _, _, _⟩ := midRow_fields jobId now p r2
          rw [← hr2e] at hcj hcm hch
          rw [f1] at hcj
          rw [f2] at hcm
          rw [f3] at hch
          refine hk ?_
          rw [initKeys, List.mem_map]
          refine ⟨r2, ?_, rowKey_eq_obsKey r2 d hcm hch⟩
          rw [jobRows, List.mem_filter]
          exact ⟨hr2, by simpa using hcj⟩
        · obtain ⟨d1, hd1, hsh⟩ := forall2_mem_right hfa r1 hins0
          refine hnew ?_
          rw [List.mem_map]
          refine ⟨d1, List.mem_of_mem_filter hd1, ?_⟩
          show deviceKeyStr d1.mac_address d1.host_name =
            deviceKeyStr d.mac_address d.host_name
          rw [← hsh.2.1, ← hsh.2.2.1, hcm, hch]
    obtain ⟨st1, hpo, hn1, hm1, hkd1, hj1, hr1, hwl1⟩ :=
      processOne_new jobId wl job now st d hget hins
    refine ⟨st1, hpo, ?_⟩
    constructor
    · rw [hj1, inv.jobs_eq]
    · rw [hr1, inv.runs_eq]
    · rw [hwl1, inv.wl_eq]
    · rw [hm1, inv.map_eq]
      refine List.filter_congr ?_
      intro e he
      obtain ⟨r1, hr1, he1⟩ := buildMap_entries _ e he
      have hne : e.1 ≠ obsKey d := by
        intro hc
        refine hk ?_
        rw [initKeys, List.mem_map]
        exact ⟨r1, hr1, by rw [← hc, he1]⟩
      rw [List.map_append, show [d].map obsKey = [obsKey d] from rfl,
        not_contains_append_singleton,
        show (e.1 != obsKey d) = true from by simpa [bne_iff_ne] using hne,
        Bool.true_and]
    · refine ⟨ins ++ [newDeviceRow jobId wl now d st.db.nextId], ?_, ?_⟩
      · rw [hkd1, hkd, List.append_assoc]
        congr 1
        refine List.map_congr_left (fun r hr => ?_)
        refine (midRow_append_not_matching jobId now p d r ?_).symm
        rintro ⟨hcj, hcm, hch⟩
        refine hk ?_
        rw [initKeys, List.mem_map]
        refine ⟨r, ?_, rowKey_eq_obsKey r d hcm hch⟩
        rw [jobRows, List.mem_filter]
        exact ⟨hr, by simpa using hcj⟩
      · rw [List.filter_append,
          show List.filter (isNewObs jobId db0) [d] = [d] from by
            simp [List.filter_cons, hknewT]]
        refine forall2_append hfa ?_
        exact List.forall₂_cons.mpr
          ⟨⟨rfl, rfl, rfl, rfl, rfl, rfl, rfl, rfl, rfl⟩, List.Forall₂.nil⟩
    · rw [hn1, inv.new_eq, List.countP_append,
        show List.countP (isNewObs jobId db0) [d] = 1 from by
          simp [List.countP_cons, hknewT]]

/-- The invariant holds at loop entry. -/
theorem loopInv_nil (jobId : String) (wl : List String) (now : Int) (db0 : Db) :
    LoopInv jobId wl now db0 []
      { newDevices := 0, warnings := 0,
        map := buildMap (db0.known_devices.filter (fun r => r.job_id == jobId)),
        db := db0 } := by
  constructor
  · rfl
  · rfl
  · rfl
  · show buildMap (jobRows jobId db0) = _
    refine ((List.filter_congr (fun e _ => ?_)).trans (List.filter_true _)).symm
    show (!(([] : List Observation).map obsKey).contains e.1) = (fun _ => true) e
    rfl
  · refine ⟨[], ?_, List.Forall₂.nil⟩
    rw [List.append_nil]
    refine ((List.map_congr_left (fun r _ => ?_)).trans (List.map_id _)).symm
    show midRow jobId now [] r = id r
    unfold midRow
    split
    · rfl
    · rfl
  · rfl

/-- Running the loop over a remainder with key-distinct batch keeps the
invariant and never fails. -/
theorem processLoop_ok (jobId : String) (wl : List String) (job : Job) (now : Int)
    (db0 : Db) :
    ∀ (rest p : List Observation) (st : LoopSt),
      LoopInv jobId wl now db0 p st →
      ((p ++ rest).map obsKey).Nodup →
      ∃ st1, processLoop jobId wl job now st rest = (st1, none) ∧
        LoopInv jobId wl now db0 (p ++ rest) st1 := by
  intro rest
  induction rest with
  | nil =>
    intro p st inv _
    exact ⟨st, rfl, by simpa using inv⟩
  | cons d rest ih =>
    intro p st inv hnd
    have hnew : obsKey d ∉ p.map obsKey := by
      intro hmem
      rw [List.map_append, List.map_cons] at hnd
      have hdisj := (List.nodup_append.mp hnd).2.2
      exact hdisj hmem (List.mem_cons_self _ _)
    obtain ⟨st1, hpo, inv1⟩ := processOne_step jobId wl job now db0 p d st inv hnew
    have hnd1 : (((p ++ [d]) ++ rest).map obsKey).Nodup := by
      rw [List.append_assoc, List.singleton_append]
      exact hnd
    obtain ⟨st2, hloop, inv2⟩ := ih (p ++ [d]) st1 inv1 hnd1
    refine ⟨st2, ?_, ?_⟩
    · show (match processOne jobId wl job now st d with
        | .ok st1 => processLoop jobId wl job now st1 rest
        | .error e => (st, some e)) = (st2, none)
      rw [hpo]
      exact hloop
    · rw [show p ++ d :: rest = (p ++ [d]) ++ rest from by
        rw [List.append_assoc, List.singleton_append]]
      exact inv2

/-- Processing an observation whose key was already processed in the
batch always fails the INSERT (for canonical-width MACs). -/
theorem processOne_dup_error (jobId : String) (wl : List String) (job : Job)
    (now : Int) (db0 : Db) (p : List Observation) (d : Observation) (st : LoopSt)
    (inv : LoopInv jobId wl now db0 p st)
    (hdup : obsKey d ∈ p.map obsKey)
    (hlp : ∀ x ∈ p, x.mac_address.length = 17)
    (hld : d.mac_address.length = 17)
    (hldb : ∀ r ∈ db0.known_devices, r.job_id = jobId →
      r.mac_address.length = 17) :
    processOne jobId wl job now st d =
      .error "UNIQUE constraint failed: known_devices" := by
  obtain ⟨ins, hkd, hfa⟩ := inv.kd_eq
  have hget : mapGet st.map (obsKey d) = none := by
    rw [mapGet_eq_none_iff]
    intro e he hek
    rw [inv.map_eq, List.mem_filter] at he
    have hc := he.2
    rw [hek, contains_iff_mem.mpr hdup] at hc
    simp at hc
  obtain ⟨d1, hd1, hd1k⟩ : ∃ x ∈ p, obsKey x = obsKey d := by
    rw [List.mem_map] at hdup
    exact hdup
  obtain ⟨hd1m, hd1h⟩ := deviceKeyStr_inj d1.mac_address d1.host_name
    d.mac_address d.host_name (hlp d1 hd1) hld hd1k
  have hins : st.db.known_devices.any (fun r =>
      r.job_id == jobId && r.mac_address == d.mac_address &&
      r.host_name == d.host_name) = true := by
    rw [List.any_eq_true]
    by_cases hk1 : isNewObs jobId db0 d1 = true
    · obtain ⟨r1, hr1, hsh⟩ := forall2_mem_left hfa d1
        (List.mem_filter.mpr ⟨hd1, hk1⟩)
      refine ⟨r1, by rw [hkd]; exact List.mem_append_right _ hr1, ?_⟩
      rw [Bool.and_eq_true, Bool.and_eq_true, beq_iff_eq, beq_iff_eq, beq_iff_eq]
      exact ⟨⟨hsh.1, by rw [hsh.2.1, hd1m]⟩, by rw [hsh.2.2.1, hd1h]⟩
    · have hk1f : (initKeys jobId db0).contains (obsKey d1) = true := by
        cases hc : (initKeys jobId db0).contains (obsKey d1)
        · exact absurd (by rw [isNewObs, hc]; rfl) hk1
        · rfl
      obtain ⟨r2, hr2, hr2k⟩ : ∃ r ∈ jobRows jobId db0, rowKey r = obsKey d1 := by
        have := contains_iff_mem.mp hk1f
        rw [initKeys, List.mem_map] at this
        exact this
      have hr2mem : r2 ∈ db0.known_devices := List.mem_of_mem_filter hr2
      have hr2job : r2.job_id = jobId := by
        have := (List.mem_filter.mp hr2).2
        simpa using this
      obtain ⟨hr2m, hr2h⟩ := deviceKeyStr_inj r2.mac_address r2.host_name
        d1.mac_address d1.host_name (hldb r2 hr2mem hr2job) (hlp d1 hd1) hr2k
      refine ⟨midRow jobId now p r2, ?_, ?_⟩
      · rw [hkd]
        exact List.mem_append_left _ (List.mem_map.mpr ⟨r2, hr2mem, rfl⟩)
      · obtain ⟨f1, f2, f3, _, _, _⟩ := midRow_fields jobId now p r2
        rw [Bool.and_eq_true, Bool.and_eq_true, beq_iff_eq, beq_iff_eq,
          beq_iff_eq, f1, f2, f3]
        exact ⟨⟨hr2job, by rw [hr2m, hd1m]⟩, by rw [hr2h, hd1h]⟩
  exact processOne_error jobId wl job now st d hget hins

/-- Marking loop: a row is switched to `inactive` exactly when some
remaining map entry matches its job, MAC and host; nothing else
changes. -/
theorem markInactive_kd (jobId : String) :
    ∀ (m : List (String × KnownDevice)) (db : Db),
      (markInactive jobId m db).known_devices = db.known_devices.map (fun r =>
        if m.any (fun e => r.job_id == jobId && r.mac_address == e.2.mac_address &&
            r.host_name == e.2.host_name) then { r with status := "inactive" }
        else r) := by
  intro m
  induction m with
  | nil =>
    intro db
    show db.known_devices = _
    refine ((List.map_congr_left (fun r _ => ?_)).trans (List.map_id _)).symm
    rfl
  | cons e m ih =>
    intro db
    show (markInactive jobId m _).known_devices = _
    rw [ih, List.map_map]
    refine List.map_congr_left (fun r _ => ?_)
    cases r with
    | mk rid rjob rmac rhost rif rvlan rwl rfs rls rst =>
      simp only [Function.comp_apply, List.any_cons]
      by_cases h1 : (rjob == jobId && rmac == e.2.mac_address &&
          rhost == e.2.host_name) = true
      · by_cases h2 : (m.any (fun e1 => rjob == jobId &&
            rmac == e1.2.mac_address && rhost == e1.2.host_name)) = true
        · simp [h1, h2]
        · simp [h1, h2]
      · by_cases h2 : (m.any (fun e1 => rjob == jobId &&
            rmac == e1.2.mac_address && rhost == e1.2.host_name)) = true
        · simp [h1, h2]
        · simp [h1, h2]

/-- The marking loop touches only `known_devices`. -/
theorem markInactive_frame (jobId : String) :
    ∀ (m : List (String × KnownDevice)) (db : Db),
      (markInactive jobId m db).jobs = db.jobs ∧
      (markInactive jobId m db).job_runs = db.job_runs ∧
      (markInactive jobId m db).job_whitelist = db.job_whitelist ∧
      (markInactive jobId m db).device_history = db.device_history ∧
      (markInactive jobId m db).nextId = db.nextId := by
  intro m
  induction m with
  | nil => intro db; exact ⟨rfl, rfl, rfl, rfl, rfl⟩
  | cons e m ih =>
    intro db
    show (markInactive jobId m _).jobs = _ ∧ _
    exact ih _

/-- `any` is false exactly when the predicate fails on every element. -/
theorem any_eq_false_iff {α : Type} {l : List α} {p : α → Bool} :
    l.any p = false ↔ ∀ x ∈ l, p x = false := by
  constructor
  · intro h x hx
    cases hp : p x
    · rfl
    · exfalso
      have hT : l.any p = true := List.any_eq_true.mpr ⟨x, hx, hp⟩
      rw [h] at hT
      cases hT
  · intro h
    cases hc : l.any p
    · rfl
    · obtain ⟨x, hx, hp⟩ := List.any_eq_true.mp hc
      rw [h x hx] at hp
      cases hp

/-- Full characterization of a successful reconciliation: rows of the
job are updated or marked inactive according to `finalRow`, one row per
new key is appended, other jobs' rows and the other tables' contents
are untouched, and `newDevices` counts the new keys. -/
theorem reconcileDevices_char (jobId : String) (ds : List Observation)
    (wl : List String) (job : Job) (now : Int) (db0 : Db)
    (hld : ∀ x ∈ ds, x.mac_address.length = 17)
    (hldb : ∀ r ∈ db0.known_devices, r.job_id = jobId →
      r.mac_address.length = 17)
    (hnd : (ds.map obsKey).Nodup) :
    ∃ w ins db1, reconcileDevices jobId ds wl job now db0 =
        .ok (ds.countP (isNewObs jobId db0), w, db1) ∧
      db1.known_devices = db0.known_devices.map (finalRow jobId now ds) ++ ins ∧
      List.Forall₂ (insShape jobId wl now) (ds.filter (isNewObs jobId db0)) ins ∧
      db1.jobs = db0.jobs ∧ db1.job_runs = db0.job_runs ∧
      db1.job_whitelist = db0.job_whitelist := by
  obtain ⟨st1, hloop, inv⟩ := processLoop_ok jobId wl job now db0 ds []
    { newDevices := 0, warnings := 0,
      map := buildMap (db0.known_devices.filter (fun r => r.job_id == jobId)),
      db := db0 }
    (loopInv_nil jobId wl now db0) (by simpa using hnd)
  obtain ⟨ins, hkd, hfa⟩ := inv.kd_eq
  have hmap := inv.map_eq
  have hcnt := inv.new_eq
  rw [List.nil_append] at hkd hfa hmap hcnt
  refine ⟨st1.warnings, ins, markInactive jobId st1.map st1.db, ?_, ?_, hfa,
    ?_, ?_, ?_⟩
  · simp only [reconcileDevices]
    rw [hloop]
    show Except.ok (st1.newDevices, st1.warnings,
      markInactive jobId st1.map st1.db) = _
    rw [hcnt]
  · rw [markInactive_kd jobId st1.map st1.db, hkd, List.map_append]
    congr 1
    · rw [List.map_map]
      refine List.map_congr_left (fun r hr => ?_)
      simp only [Function.comp_apply]
      obtain ⟨f1, f2, f3, _, _, _⟩ := midRow_fields jobId now ds r
      by_cases hj : r.job_id = jobId
      · cases hfo : obsFor ds r with
        | some d0 =>
          have hmid : midRow jobId now ds r = activeUpd now d0 r := by
            unfold midRow
            rw [if_pos (by simpa using hj), hfo]
          have hd0 : d0 ∈ ds := List.mem_of_find?_eq_some hfo
          have hd0p := List.find?_some hfo
          rw [Bool.and_eq_true, beq_iff_eq, beq_iff_eq] at hd0p
          have hkeyr : rowKey r = obsKey d0 :=
            rowKey_eq_obsKey r d0 hd0p.1 hd0p.2
          have hany : st1.map.any (fun e =>
              (midRow jobId now ds r).job_id == jobId &&
              (midRow jobId now ds r).mac_address == e.2.mac_address &&
              (midRow jobId now ds r).host_name == e.2.host_name) = false := by
            rw [any_eq_false_iff]
            intro e he
            rw [hmap, List.mem_filter] at he
            obtain ⟨r2, hr2, he2⟩ := buildMap_entries _ e he.1
            rw [Bool.and_eq_false_iff]
            by_cases hm2 : (midRow jobId now ds r).mac_address = e.2.mac_address
            · right
              rw [beq_eq_false_iff_ne, ne_eq]
              intro hh2
              rw [f2] at hm2
              rw [f3] at hh2
              have he21 : e.1 = rowKey r := by
                rw [he2]
                show rowKey r2 = rowKey r
                rw [he2] at hm2 hh2
                exact (rowKey_eq_obsKey r2 ⟨r.mac_address, 0, "", "",
                  r.host_name, ""⟩ hm2.symm hh2.symm).trans
                  (rowKey_eq_obsKey r ⟨r.mac_address, 0, "", "",
                    r.host_name, ""⟩ rfl rfl).symm
              have hc := he.2
              rw [he21, hkeyr, contains_iff_mem.mpr
                (List.mem_map.mpr ⟨d0, hd0, rfl⟩)] at hc
              simp at hc
            · left
              rw [Bool.and_eq_false_iff]
              right
              rw [beq_eq_false_iff_ne, ne_eq]
              exact hm2
          rw [hany]
          simp only [Bool.false_eq_true, if_false]
          rw [hmid]
          unfold finalRow
          rw [if_pos (by simpa using hj), hfo]
        | none =>
          have hmid : midRow jobId now ds r = r := by
            unfold midRow
            rw [if_pos (by simpa using hj), hfo]
          have hnotin : rowKey r ∉ ds.map obsKey := by
            intro hc
            rw [List.mem_map] at hc
            obtain ⟨dx, hdx, hdxk⟩ := hc
            obtain ⟨hxm, hxh⟩ := deviceKeyStr_inj dx.mac_address dx.host_name
              r.mac_address r.host_name (hld dx hdx) (hldb r hr hj) hdxk
            rw [obsFor, List.find?_eq_none] at hfo
            exact hfo dx hdx (by rw [hxm, hxh]; simp)
          have hrjob : r ∈ jobRows jobId db0 := by
            rw [jobRows, List.mem_filter]
            exact ⟨hr, by simpa using hj⟩
          obtain ⟨w1, hw1⟩ := buildMap_key_mem _ r hrjob
          obtain ⟨r3, hr3, he3⟩ := buildMap_entries _ _ hw1
          have hw1r3 : w1 = r3 ∧ rowKey r3 = rowKey r := by
            have h1 := congrArg Prod.fst he3
            have h2 := congrArg Prod.snd he3
            exact ⟨h2, h1.symm⟩
          have hr3mem : r3 ∈ db0.known_devices := List.mem_of_mem_filter hr3
          have hr3job : r3.job_id = jobId := by
            have := (List.mem_filter.mp hr3).2
            simpa using this
          obtain ⟨h3m, h3h⟩ := deviceKeyStr_inj r3.mac_address r3.host_name
            r.mac_address r.host_name (hldb r3 hr3mem hr3job) (hldb r hr hj)
            hw1r3.2
          have hany : st1.map.any (fun e =>
              (midRow jobId now ds r).job_id == jobId &&
              (midRow jobId now ds r).mac_address == e.2.mac_address &&
              (midRow jobId now ds r).host_name == e.2.host_name) = true := by
            rw [List.any_eq_true]
            refine ⟨(rowKey r, w1), ?_, ?_⟩
            · rw [hmap, List.mem_filter]
              refine ⟨hw1, ?_⟩
              show (!(ds.map obsKey).contains (rowKey r)) = true
              rw [contains_eq_false_iff.mpr hnotin]
              rfl
            · rw [Bool.and_eq_true, Bool.and_eq_true, beq_iff_eq, beq_iff_eq,
                beq_iff_eq, f1, f2, f3]
              rw [hw1r3.1]
              exact ⟨⟨hj, h3m.symm⟩, h3h.symm⟩
          rw [hany]
          simp only [if_true]
          rw [hmid]
          unfold finalRow
          rw [if_pos (by simpa using hj), hfo]
      · have hany : st1.map.any (fun e =>
            (midRow jobId now ds r).job_id == jobId &&
            (midRow jobId now ds r).mac_address == e.2.mac_address &&
            (midRow jobId now ds r).host_name == e.2.host_name) = false := by
          rw [any_eq_false_iff]
          intro e _
          rw [Bool.and_eq_false_iff]
          left
          rw [Bool.and_eq_false_iff]
          left
          rw [f1, beq_eq_false_iff_ne, ne_eq]
          exact hj
        rw [hany]
        simp only [Bool.false_eq_true, if_false]
        show midRow jobId now ds r = finalRow jobId now ds r
        unfold midRow finalRow
        rw [if_neg (by simpa using hj), if_neg (by simpa using hj)]
    · calc ins.map _ = ins.map id := List.map_congr_left (fun r1 h1 => ?_)
        _ = ins := List.map_id ins
      obtain ⟨d1, hd1, hsh⟩ := forall2_mem_right hfa r1 h1
      have hany : st1.map.any (fun e => r1.job_id == jobId &&
          r1.mac_address == e.2.mac_address &&
          r1.host_name == e.2.host_name) = false := by
        rw [any_eq_false_iff]
        intro e he
        rw [hmap, List.mem_filter] at he
        obtain ⟨r2, hr2, he2⟩ := buildMap_entries _ e he.1
        rw [Bool.and_eq_false_iff]
        by_cases hm2 : r1.mac_address = e.2.mac_address
        · right
          rw [beq_eq_false_iff_ne, ne_eq]
          intro hh2
          have he21 : e.1 = obsKey d1 := by
            rw [he2]
            show rowKey r2 = obsKey d1
            rw [he2] at hm2 hh2
            unfold rowKey obsKey deviceKeyStr
            rw [← hm2, ← hh2, hsh.2.1, hsh.2.2.1]
          have hc := he.2
          rw [he21, contains_iff_mem.mpr (List.mem_map.mpr
            ⟨d1, List.mem_of_mem_filter hd1, rfl⟩)] at hc
          simp at hc
        · left
          rw [Bool.and_eq_false_iff]
          right
          rw [beq_eq_false_iff_ne, ne_eq]
          exact hm2
      show (if (st1.map.any fun e => r1.job_id == jobId &&
          r1.mac_address == e.2.mac_address &&
          r1.host_name == e.2.host_name) = true then
        { r1 with status := "inactive" } else r1) = id r1
      rw [hany]
      rfl
  · rw [(markInactive_frame jobId st1.map st1.db).1, inv.jobs_eq]
  · rw [(markInactive_frame jobId st1.map st1.db).2.1, inv.runs_eq]
  · rw [(markInactive_frame jobId st1.map st1.db).2.2.1, inv.wl_eq]

/-- The device loop splits over an appended batch. -/
theorem processLoop_append (jobId : String) (wl : List String) (job : Job)
    (now : Int) :
    ∀ (p q : List Observation) (st : LoopSt),
      processLoop jobId wl job now st (p ++ q) =
        match processLoop jobId wl job now st p with
        | (st1, none) => processLoop jobId wl job now st1 q
        | (st1, some e) => (st1, some e) := by
  intro p
  induction p with
  | nil => intro q st; rfl
  | cons d p ih =>
    intro q st
    show (match processOne jobId wl job now st d with
      | .ok s => processLoop jobId wl job now s (p ++ q)
      | .error e => (st, some e)) = _
    cases hpo : processOne jobId wl job now st d with
    | ok st1 =>
      show processLoop jobId wl job now st1 (p ++ q) = _
      rw [ih q st1]
      show _ = (match (match processOne jobId wl job now st d with
        | .ok s => processLoop jobId wl job now s p
        | .error e => (st, some e)) with
        | (st2, none) => processLoop jobId wl job now st2 q
        | (st2, some e) => (st2, some e))
      rw [hpo]
    | error e =>
      show (st, some e) = (match (match processOne jobId wl job now st d with
        | .ok s => processLoop jobId wl job now s p
        | .error e => (st, some e)) with
        | (st2, none) => processLoop jobId wl job now st2 q
        | (st2, some e) => (st2, some e))
      rw [hpo]

/-- A batch repeating a key makes the Reconciler abort with the UNIQUE
violation (for canonical-width MACs). -/
theorem reconcileDevices_dup_error (jobId : String) (ds : List Observation)
    (wl : List String) (job : Job) (now : Int) (db0 : Db)
    (hld : ∀ x ∈ ds, x.mac_address.length = 17)
    (hldb : ∀ r ∈ db0.known_devices, r.job_id = jobId →
      r.mac_address.length = 17)
    (hdup : ¬ (ds.map obsKey).Nodup) :
    ∃ db1, reconcileDevices jobId ds wl job now db0 =
      .error ("UNIQUE constraint failed: known_devices", db1) := by
  obtain ⟨p, x, rest, hsplit, hndp, hxk⟩ := exists_dup_split obsKey ds hdup
  obtain ⟨st1, hloop, inv⟩ := processLoop_ok jobId wl job now db0 p []
    { newDevices := 0, warnings := 0,
      map := buildMap (db0.known_devices.filter (fun r => r.job_id == jobId)),
      db := db0 }
    (loopInv_nil jobId wl now db0) (by simpa using hndp)
  have hlp : ∀ z ∈ p, z.mac_address.length = 17 := fun z hz =>
    hld z (by rw [hsplit]; exact List.mem_append_left _ hz)
  have hlx : x.mac_address.length = 17 :=
    hld x (by rw [hsplit]; exact List.mem_append_right _ (List.mem_cons_self _ _))
  have herr := processOne_dup_error jobId wl job now db0 p x st1
    (by simpa using inv) hxk hlp hlx hldb
  refine ⟨st1.db, ?_⟩
  simp only [reconcileDevices]
  rw [hsplit, processLoop_append, hloop]
  show (match (match processOne jobId wl job now st1 x with
    | .ok s => processLoop jobId wl job now s rest
    | .error e => (st1, some e)) with
    | (st2, some e) => Except.error (e, st2.db)
    | (st2, none) => Except.ok (st2.newDevices, st2.warnings,
        markInactive jobId st2.map st2.db)) = _
  rw [herr]

/-- Lifts the duplicate-key failure to `_processDevices`. -/
theorem processDevices_dup_error (jobId : String) (ds : List Observation)
    (wl : List String) (job : Job) (now : Int) (db0 : Db)
    (hld : ∀ x ∈ ds, x.mac_address.length = 17)
    (hldb : ∀ r ∈ db0.known_devices, r.job_id = jobId →
      r.mac_address.length = 17)
    (hdup : ¬ (ds.map obsKey).Nodup) :
    ∃ db1, processDevices jobId ds wl job now db0 =
      .error ("UNIQUE constraint failed: known_devices", db1) := by
  obtain ⟨db1, h⟩ := reconcileDevices_dup_error jobId ds wl job now db0
    hld hldb hdup
  refine ⟨db1, ?_⟩
  simp only [processDevices]
  rw [h]

/-- A `_processDevices` call that returns implies key-distinctness of
the batch (for canonical-width MACs). -/
theorem processDevices_ok_nodup (jobId : String) (ds : List Observation)
    (wl : List String) (job : Job) (now : Int) (db0 : Db)
    (res : RunResult) (db1 : Db)
    (hld : ∀ x ∈ ds, x.mac_address.length = 17)
    (hldb : ∀ r ∈ db0.known_devices, r.job_id = jobId →
      r.mac_address.length = 17)
    (hok : processDevices jobId ds wl job now db0 = .ok (res, db1)) :
    (ds.map obsKey).Nodup := by
  by_contra hdup
  obtain ⟨db2, herr⟩ := processDevices_dup_error jobId ds wl job now db0
    hld hldb hdup
  rw [herr] at hok
  cases hok

/-- C1: whenever `_processDevices` returns counters, `devicesFound`
equals the number of distinct (MAC, host) keys of the batch after
same-batch duplicate collapsing — because a batch with a repeated key
never returns (its INSERT aborts the run), so a returned count
`devices.length` is exactly the distinct-key count.  MACs are assumed
to have the canonical 17-character width the parser guarantees, which
makes the `mac:host` key collision-free. -/
theorem devices_found_conservation (jobId : String) (ds : List Observation)
    (wl : List String) (job : Job) (now : Int) (db0 : Db)
    (res : RunResult) (db1 : Db)
    (hld : ∀ x ∈ ds, x.mac_address.length = 17)
    (hldb : ∀ r ∈ db0.known_devices, r.job_id = jobId →
      r.mac_address.length = 17)
    (hok : processDevices jobId ds wl job now db0 = .ok (res, db1)) :
    res.devicesFound = ((ds.map obsKey).dedup).length := by
  have hnd := processDevices_ok_nodup jobId ds wl job now db0 res db1
    hld hldb hok
  have hdf : res.devicesFound = ds.length := by
    simp only [processDevices] at hok
    cases hrec : reconcileDevices jobId ds wl job now db0 with
    | error e =>
      rw [hrec] at hok
      obtain ⟨e1, dbe⟩ := e
      cases hok
    | ok t =>
      obtain ⟨n, w, dbx⟩ := t
      rw [hrec] at hok
      have := congrArg (fun x => match x with
        | Except.ok (r, _) => r.devicesFound
        | Except.error _ => 0) hok
      simpa using this.symm
  rw [hdf, List.dedup_eq_self.mpr hnd, List.length_map]

/-- C1 witness: a two-device batch over `exDb` returns counters, and the
returned `devicesFound` is the distinct-key count 2. -/
theorem devices_found_conservation_witness :
    (([exObsA, exObsB].map obsKey).dedup).length = 2 ∧
    ({ devicesFound := 2, newDevices := 1, warnings := 1 } : RunResult).devicesFound
      = (([exObsA, exObsB].map obsKey).dedup).length := by
  refine ⟨by decide, ?_⟩
  exact devices_found_conservation "j" [exObsA, exObsB] ["aa:bb:cc:dd:ee:ff"]
    exJob 50 exDb { devicesFound := 2, newDevices := 1, warnings := 1 } exDbOut
    (by decide) (by decide) rfl

/-- C2 (amended): within one batch, a repeated (MAC, host) key is not
resolved last-one-wins.  With all keys distinct the batch succeeds; with
any repeated key the later occurrence takes the new-device path (the map
entry was deleted or never updated) and its INSERT violates
`UNIQUE(job_id, mac_address, host_name)`, aborting `_processDevices` —
whether or not the key already existed in the prior inventory. -/
theorem duplicate_keys_abort (jobId : String) (ds : List Observation)
    (wl : List String) (job : Job) (now : Int) (db0 : Db)
    (hld : ∀ x ∈ ds, x.mac_address.length = 17)
    (hldb : ∀ r ∈ db0.known_devices, r.job_id = jobId →
      r.mac_address.length = 17) :
    ((ds.map obsKey).Nodup →
      ∃ res, processDevices jobId ds wl job now db0 = .ok res) ∧
    (¬ (ds.map obsKey).Nodup →
      ∃ db1, processDevices jobId ds wl job now db0 =
        .error ("UNIQUE constraint failed: known_devices", db1)) := by
  constructor
  · intro hnd
    obtain ⟨w, ins, db1, hok, _⟩ := reconcileDevices_char jobId ds wl job now db0
      hld hldb hnd
    refine ⟨(⟨ds.length, ds.countP (isNewObs jobId db0), w⟩,
      applyRetentionPolicy jobId job now db1), ?_⟩
    simp only [processDevices]
    rw [hok]
  · exact processDevices_dup_error jobId ds wl job now db0 hld hldb

/-- C2 witness: a distinct-key batch succeeds, a batch repeating the
key of an inventoried device aborts with the UNIQUE violation. -/
theorem duplicate_keys_abort_witness :
    (processDevices "j" [exObsA] [] exJob 50 exDb).toBool = true ∧
    errOf (processDevices "j" [exObsA, exObsA] [] exJob 50 exDb) =
      some "UNIQUE constraint failed: known_devices" := by
  constructor
  · obtain ⟨res, hres⟩ := (duplicate_keys_abort "j" [exObsA] [] exJob 50 exDb
      (by decide) (by decide)).1 (by decide)
    rw [hres]
    rfl
  · obtain ⟨db1, hdb1⟩ := (duplicate_keys_abort "j" [exObsA, exObsA] [] exJob
      50 exDb (by decide) (by decide)).2 (by decide)
    rw [hdb1]
    rfl

/-- A Reconciler merge that returns implies key-distinctness of the
batch (for canonical-width MACs). -/
theorem reconcileDevices_ok_nodup (jobId : String) (ds : List Observation)
    (wl : List String) (job : Job) (now : Int) (db0 : Db)
    (n w : Nat) (db1 : Db)
    (hld : ∀ x ∈ ds, x.mac_address.length = 17)
    (hldb : ∀ r ∈ db0.known_devices, r.job_id = jobId →
      r.mac_address.length = 17)
    (hok : reconcileDevices jobId ds wl job now db0 = .ok (n, w, db1)) :
    (ds.map obsKey).Nodup := by
  by_contra hdup
  obtain ⟨db2, herr⟩ := reconcileDevices_dup_error jobId ds wl job now db0
    hld hldb hdup
  rw [herr] at hok
  cases hok

/-- `finalRow` keeps identity, key and provenance fields. -/
theorem finalRow_fields (jobId : String) (now : Int) (ds : List Observation)
    (r : KnownDevice) :
    (finalRow jobId now ds r).id = r.id ∧
    (finalRow jobId now ds r).job_id = r.job_id ∧
    (finalRow jobId now ds r).mac_address = r.mac_address ∧
    (finalRow jobId now ds r).host_name = r.host_name ∧
    (finalRow jobId now ds r).whitelisted = r.whitelisted ∧
    (finalRow jobId now ds r).first_seen = r.first_seen := by
  unfold finalRow
  split
  · split <;> exact ⟨rfl, rfl, rfl, rfl, rfl, rfl⟩
  · exact ⟨rfl, rfl, rfl, rfl, rfl, rfl⟩

/-- C6: after the Reconciler's merge-and-mark phase (before the
Retention Enforcer runs), a `known_devices` row of the job present
before reconciliation still exists, and it ends up `inactive` exactly
when no observation of the batch carries its (MAC, host) key; in the
unobserved case the row changes in nothing but its status. -/
theorem inactive_iff_unobserved (jobId : String) (ds : List Observation)
    (wl : List String) (job : Job) (now : Int) (db0 : Db)
    (n w : Nat) (db1 : Db)
    (hld : ∀ x ∈ ds, x.mac_address.length = 17)
    (hldb : ∀ r ∈ db0.known_devices, r.job_id = jobId →
      r.mac_address.length = 17)
    (hok : reconcileDevices jobId ds wl job now db0 = .ok (n, w, db1)) :
    ∀ r ∈ db0.known_devices, r.job_id = jobId →
      ∃ r1 ∈ db1.known_devices, r1.id = r.id ∧
        r1.mac_address = r.mac_address ∧ r1.host_name = r.host_name ∧
        ((ds.any (fun d => r.mac_address == d.mac_address &&
            r.host_name == d.host_name)) = true → r1.status = "active") ∧
        ((ds.any (fun d => r.mac_address == d.mac_address &&
            r.host_name == d.host_name)) = false →
          r1 = { r with status := "inactive" }) := by
  have hnd := reconcileDevices_ok_nodup jobId ds wl job now db0 n w db1
    hld hldb hok
  obtain ⟨w1, ins, db1c, heq, hkd, hfa, _, _, _⟩ :=
    reconcileDevices_char jobId ds wl job now db0 hld hldb hnd
  rw [heq] at hok
  injection hok with hpair
  injection hpair with h1 hpair2
  injection hpair2 with h2 h3
  subst h3
  intro r hr hj
  refine ⟨finalRow jobId now ds r, ?_, ?_⟩
  · rw [hkd]
    exact List.mem_append_left _ (List.mem_map.mpr ⟨r, hr, rfl⟩)
  · obtain ⟨f1, _, f3, f4, _, _⟩ := finalRow_fields jobId now ds r
    refine ⟨f1, f3, f4, ?_, ?_⟩
    · intro hany
      obtain ⟨d0, hd0, hp0⟩ := List.any_eq_true.mp hany
      cases hfo : obsFor ds r with
      | none =>
        rw [obsFor, List.find?_eq_none] at hfo
        exact absurd hp0 (by simpa using hfo d0 hd0)
      | some d1 =>
        unfold finalRow
        rw [if_pos (by simpa using hj), hfo]
        rfl
    · intro hany
      rw [any_eq_false_iff] at hany
      have hfo : obsFor ds r = none := by
        rw [obsFor, List.find?_eq_none]
        intro x hx
        rw [hany x hx]
        simp
      unfold finalRow
      rw [if_pos (by simpa using hj), hfo]

/-- C6 witness: over `exDb`, the batch `[exObsB]` does not observe
`exDevA`, which is kept as a row and transitioned to `inactive` with
every other field intact. -/
theorem inactive_iff_unobserved_witness :
    ∃ r1 ∈ exDbRecon.known_devices, r1.id = exDevA.id ∧
      r1.mac_address = exDevA.mac_address ∧ r1.host_name = exDevA.host_name ∧
      (([exObsB].any (fun d => exDevA.mac_address == d.mac_address &&
          exDevA.host_name == d.host_name)) = true → r1.status = "active") ∧
      (([exObsB].any (fun d => exDevA.mac_address == d.mac_address &&
          exDevA.host_name == d.host_name)) = false →
        r1 = { exDevA with status := "inactive" }) :=
  inactive_iff_unobserved "j" [exObsB] [] exJob 50 exDb 1 1 exDbRecon
    (by decide) (by decide) rfl exDevA (by decide) rfl

/-- C10: when the Reconciler processes an observation whose (MAC, host)
key already exists in the job's inventory, the resulting row differs
from the stored one only in interface, VLAN, last-seen and status; the
whitelisted flag and the first-seen timestamp survive unchanged,
whatever the whitelist passed to the call contains. -/
theorem existing_update_frame (jobId : String) (ds : List Observation)
    (wl : List String) (job : Job) (now : Int) (db0 : Db)
    (n w : Nat) (db1 : Db)
    (hld : ∀ x ∈ ds, x.mac_address.length = 17)
    (hldb : ∀ r ∈ db0.known_devices, r.job_id = jobId →
      r.mac_address.length = 17)
    (hok : reconcileDevices jobId ds wl job now db0 = .ok (n, w, db1)) :
    ∀ r ∈ db0.known_devices, r.job_id = jobId →
    ∀ d ∈ ds, d.mac_address = r.mac_address → d.host_name = r.host_name →
      ∃ r1 ∈ db1.known_devices,
        r1.id = r.id ∧ r1.job_id = r.job_id ∧
        r1.mac_address = r.mac_address ∧ r1.host_name = r.host_name ∧
        r1.whitelisted = r.whitelisted ∧ r1.first_seen = r.first_seen ∧
        r1.interface_name = d.interface_name ∧ r1.vlan_id = d.vlan_id ∧
        r1.last_seen = now ∧ r1.status = "active" := by
  have hnd := reconcileDevices_ok_nodup jobId ds wl job now db0 n w db1
    hld hldb hok
  obtain ⟨w1, ins, db1c, heq, hkd, hfa, _, _, _⟩ :=
    reconcileDevices_char jobId ds wl job now db0 hld hldb hnd
  rw [heq] at hok
  injection hok with hpair
  injection hpair with h1 hpair2
  injection hpair2 with h2 h3
  subst h3
  intro r hr hj d hd hdm hdh
  have hfo : obsFor ds r = some d := by
    cases hfo0 : obsFor ds r with
    | none =>
      rw [obsFor, List.find?_eq_none] at hfo0
      exact absurd (by rw [hdm, hdh]; simp : (r.mac_address == d.mac_address &&
        r.host_name == d.host_name) = true) (hfo0 d hd)
    | some d0 =>
      have hd0 := List.mem_of_find?_eq_some hfo0
      have hp0 := List.find?_some hfo0
      rw [Bool.and_eq_true, beq_iff_eq, beq_iff_eq] at hp0
      have hkeys : obsKey d0 = obsKey d := by
        unfold obsKey deviceKeyStr
        rw [← hp0.1, ← hp0.2, hdm, hdh]
      rw [List.inj_on_of_nodup_map hnd hd0 hd hkeys]
  refine ⟨finalRow jobId now ds r, ?_, ?_⟩
  · rw [hkd]
    exact List.mem_append_left _ (List.mem_map.mpr ⟨r, hr, rfl⟩)
  · have hfr : finalRow jobId now ds r = activeUpd now d r := by
      unfold finalRow
      rw [if_pos (by simpa using hj), hfo]
    rw [hfr]
    exact ⟨rfl, rfl, rfl, rfl, rfl, rfl, rfl, rfl, rfl, rfl⟩

/-- C10 witness: `exObsA` re-observes `exDevA` on a call whose
whitelist does not contain its MAC — the row keeps `whitelisted = true`
and `first_seen = 5`, while interface, VLAN, last-seen and status are
updated. -/
theorem existing_update_frame_witness :
    ∃ r1 ∈ exDbOut.known_devices,
      r1.id = exDevA.id ∧ r1.job_id = exDevA.job_id ∧
      r1.mac_address = exDevA.mac_address ∧ r1.host_name = exDevA.host_name ∧
      r1.whitelisted = exDevA.whitelisted ∧ r1.first_seen = exDevA.first_seen ∧
      r1.interface_name = exObsA.interface_name ∧
      r1.vlan_id = exObsA.vlan_id ∧ r1.last_seen = 50 ∧ r1.status = "active" :=
  existing_update_frame "j" [exObsA, exObsB] [] exJob 50 exDb
    1 1 exDbOut (by decide) (by decide) rfl exDevA (by decide) rfl exObsA
    (by decide) rfl rfl

/-- Retention only ever removes rows. -/
theorem applyRetention_subset (jobId : String) (job : Job) (now : Int) (db : Db)
    (r : KnownDevice)
    (hr : r ∈ (applyRetentionPolicy jobId job now db).known_devices) :
    r ∈ db.known_devices := by
  unfold applyRetentionPolicy at hr
  split at hr
  · exact hr
  · split at hr
    · exact (List.mem_filter.mp hr).1
    · split at hr
      · exact (List.mem_filter.mp hr).1
      · exact hr

/-- Retention never removes an `active` row. -/
theorem applyRetention_keeps (jobId : String) (job : Job) (now : Int) (db : Db)
    (r : KnownDevice) (hr : r ∈ db.known_devices) (hst : r.status = "active") :
    r ∈ (applyRetentionPolicy jobId job now db).known_devices := by
  unfold applyRetentionPolicy
  split
  · exact hr
  · split
    · exact List.mem_filter.mpr ⟨hr, by simp [hst]⟩
    · split
      · exact List.mem_filter.mpr ⟨hr, by simp [hst]⟩
      · exact hr

/-- The inventory after retention depends only on the inventory
before. -/
theorem applyRetention_kd_congr (jobId : String) (job : Job) (now : Int)
    (da db : Db) (h : da.known_devices = db.known_devices) :
    (applyRetentionPolicy jobId job now da).known_devices =
    (applyRetentionPolicy jobId job now db).known_devices := by
  unfold applyRetentionPolicy
  split
  · exact h
  · split
    · show List.filter _ da.known_devices = List.filter _ db.known_devices
      rw [h]
    · split
      · show List.filter _ da.known_devices = List.filter _ db.known_devices
        rw [h]
      · exact h

/-- Retention is idempotent on the inventory. -/
theorem applyRetention_idem (jobId : String) (job : Job) (now : Int) (db : Db) :
    (applyRetentionPolicy jobId job now
      (applyRetentionPolicy jobId job now db)).known_devices =
    (applyRetentionPolicy jobId job now db).known_devices := by
  unfold applyRetentionPolicy
  split
  · rfl
  · split
    · show List.filter _ (List.filter _ db.known_devices) = _
      rw [List.filter_filter]
      exact List.filter_congr (fun a _ => Bool.and_self _)
    · split
      · show List.filter _ (List.filter _ db.known_devices) = _
        rw [List.filter_filter]
        exact List.filter_congr (fun a _ => Bool.and_self _)
      · rfl

/-- `obsFor` depends on the row only through its MAC and host. -/
theorem obsFor_congr (ds : List Observation) (r r1 : KnownDevice)
    (hm : r.mac_address = r1.mac_address) (hh : r.host_name = r1.host_name) :
    obsFor ds r = obsFor ds r1 := by
  unfold obsFor
  rw [hm, hh]

/-- C7: reconciling the same batch again, with the same clock, over the
inventory a successful `_processDevices` produced yields zero
new-device events and leaves every `known_devices` row unchanged up to
its last-seen timestamp. -/
theorem reconcile_idempotent (jobId : String) (ds : List Observation)
    (wl : List String) (job : Job) (now : Int) (db0 : Db)
    (r1 : RunResult) (db1 : Db)
    (hld : ∀ x ∈ ds, x.mac_address.length = 17)
    (hldb : ∀ r ∈ db0.known_devices, r.job_id = jobId →
      r.mac_address.length = 17)
    (hok1 : processDevices jobId ds wl job now db0 = .ok (r1, db1)) :
    ∃ r2 db2, processDevices jobId ds wl job now db1 = .ok (r2, db2) ∧
      r2.newDevices = 0 ∧
      db2.known_devices.map clearLastSeen =
        db1.known_devices.map clearLastSeen := by
  have hnd := processDevices_ok_nodup jobId ds wl job now db0 r1 db1 hld hldb hok1
  obtain ⟨w1, ins1, dbR, heq1, hkdR, hfa1, _, _, _⟩ :=
    reconcileDevices_char jobId ds wl job now db0 hld hldb hnd
  have hdb1 : db1 = applyRetentionPolicy jobId job now dbR := by
    simp only [processDevices] at hok1
    rw [heq1] at hok1
    injection hok1 with hpr
    exact (congrArg Prod.snd hpr).symm
  subst hdb1
  have hldb1 : ∀ r ∈ (applyRetentionPolicy jobId job now dbR).known_devices,
      r.job_id = jobId → r.mac_address.length = 17 := by
    intro r hr hj
    have hrR : r ∈ dbR.known_devices := applyRetention_subset _ _ _ _ _ hr
    rw [hkdR] at hrR
    rcases List.mem_append.mp hrR with hm | hi
    · rw [List.mem_map] at hm
      obtain ⟨r0, hr0, hr0e⟩ := hm
      obtain ⟨_, g2, g3, _, _, _⟩ := finalRow_fields jobId now ds r0
      rw [← hr0e, g3]
      refine hldb r0 hr0 ?_
      rw [← g2, hr0e, hj]
    · obtain ⟨d1, hd1, hsh⟩ := forall2_mem_right hfa1 r hi
      rw [hsh.2.1]
      exact hld d1 (List.mem_of_mem_filter hd1)
  obtain ⟨w2, ins2, dbR2, heq2, hkdR2, hfa2, _, _, _⟩ :=
    reconcileDevices_char jobId ds wl job now
      (applyRetentionPolicy jobId job now dbR) hld hldb1 hnd
  have hall : ∀ d ∈ ds,
      isNewObs jobId (applyRetentionPolicy jobId job now dbR) d = false := by
    intro d hd
    rw [isNewObs]
    have hcont1 : (initKeys jobId
        (applyRetentionPolicy jobId job now dbR)).contains (obsKey d) = true := by
      rw [contains_iff_mem, initKeys, List.mem_map]
      by_cases hnewd : isNewObs jobId db0 d = true
      · obtain ⟨rI, hrI, hshI⟩ := forall2_mem_left hfa1 d
          (List.mem_filter.mpr ⟨hd, hnewd⟩)
        refine ⟨rI, ?_, ?_⟩
        · rw [jobRows, List.mem_filter]
          refine ⟨applyRetention_keeps _ _ _ _ rI
            (by rw [hkdR]; exact List.mem_append_right _ hrI)
            hshI.2.2.2.2.2.2.2.2, by simp [hshI.1]⟩
        · show deviceKeyStr rI.mac_address rI.host_name = _
          rw [hshI.2.1, hshI.2.2.1]
          rfl
      · have hcont : (initKeys jobId db0).contains (obsKey d) = true := by
          cases hc : (initKeys jobId db0).contains (obsKey d)
          · exact absurd (by rw [isNewObs, hc]; rfl) hnewd
          · rfl
        obtain ⟨r0, hr0, hr0k⟩ : ∃ r ∈ jobRows jobId db0, rowKey r = obsKey d := by
          have hx := contains_iff_mem.mp hcont
          rw [initKeys, List.mem_map] at hx
          exact hx
        have hr0mem : r0 ∈ db0.known_devices := List.mem_of_mem_filter hr0
        have hr0job : r0.job_id = jobId := by
          have hx := (List.mem_filter.mp hr0).2
          simpa using hx
        obtain ⟨h0m, h0h⟩ := deviceKeyStr_inj r0.mac_address r0.host_name
          d.mac_address d.host_name (hldb r0 hr0mem hr0job) (hld d hd) hr0k
        obtain ⟨d0, hfo⟩ : ∃ d0, obsFor ds r0 = some d0 := by
          cases hfo0 : obsFor ds r0 with
          | some d0 => exact ⟨d0, rfl⟩
          | none =>
            rw [obsFor, List.find?_eq_none] at hfo0
            exact absurd (by rw [h0m, h0h]; simp :
              (r0.mac_address == d.mac_address &&
                r0.host_name == d.host_name) = true) (hfo0 d hd)
        have hact : finalRow jobId now ds r0 = activeUpd now d0 r0 := by
          unfold finalRow
          rw [if_pos (by simpa using hr0job), hfo]
        refine ⟨finalRow jobId now ds r0, ?_, ?_⟩
        · rw [jobRows, List.mem_filter]
          constructor
          · refine applyRetention_keeps _ _ _ _ _ ?_ ?_
            · rw [hkdR]
              exact List.mem_append_left _ (List.mem_map.mpr ⟨r0, hr0mem, rfl⟩)
            · rw [hact]; rfl
          · obtain ⟨_, g2, _, _, _, _⟩ := finalRow_fields jobId now ds r0
            rw [g2]
            simpa using hr0job
        · obtain ⟨_, _, g3, g4, _, _⟩ := finalRow_fields jobId now ds r0
          show deviceKeyStr _ _ = _
          rw [g3, g4, ← hr0k]
          rfl
    rw [hcont1]
    rfl
  have hcnt0 : ds.countP
      (isNewObs jobId (applyRetentionPolicy jobId job now dbR)) = 0 :=
    List.countP_eq_zero.mpr (fun d hd => by rw [hall d hd]; simp)
  have hfilt : ds.filter
      (isNewObs jobId (applyRetentionPolicy jobId job now dbR)) = [] :=
    List.filter_eq_nil_iff.mpr (fun d hd => by rw [hall d hd]; simp)
  have hins2 : ins2 = [] := by
    rw [hfilt] at hfa2
    exact List.forall₂_nil_left_iff.mp hfa2
  have hid : ∀ r ∈ (applyRetentionPolicy jobId job now dbR).known_devices,
      finalRow jobId now ds r = r := by
    intro r hr
    have hrR : r ∈ dbR.known_devices := applyRetention_subset _ _ _ _ _ hr
    rw [hkdR] at hrR
    rcases List.mem_append.mp hrR with hm | hi
    · rw [List.mem_map] at hm
      obtain ⟨r0, hr0, hr0e⟩ := hm
      by_cases hj : r0.job_id = jobId
      · cases hfo : obsFor ds r0 with
        | some d0 =>
          have hact : finalRow jobId now ds r0 = activeUpd now d0 r0 := by
            unfold finalRow
            rw [if_pos (by simpa using hj), hfo]
          rw [← hr0e, hact]
          unfold finalRow
          rw [if_pos (by simpa using hj),
            obsFor_congr ds (activeUpd now d0 r0) r0 rfl rfl, hfo]
          rfl
        | none =>
          have hina : finalRow jobId now ds r0 =
              { r0 with status := "inactive" } := by
            unfold finalRow
            rw [if_pos (by simpa using hj), hfo]
          rw [← hr0e, hina]
          unfold finalRow
          rw [if_pos (by simpa using hj),
            obsFor_congr ds { r0 with status := "inactive" } r0 rfl rfl, hfo]
      · have hsame : finalRow jobId now ds r0 = r0 := by
          unfold finalRow
          rw [if_neg (by simpa using hj)]
        rw [← hr0e, hsame]
        unfold finalRow
        rw [if_neg (by simpa using hj)]
    · obtain ⟨d1, hd1, hsh⟩ := forall2_mem_right hfa1 r hi
      have hd1mem : d1 ∈ ds := List.mem_of_mem_filter hd1
      have hfo : obsFor ds r = some d1 := by
        cases hfo0 : obsFor ds r with
        | none =>
          rw [obsFor, List.find?_eq_none] at hfo0
          exact absurd (by rw [hsh.2.1, hsh.2.2.1]; simp :
            (r.mac_address == d1.mac_address &&
              r.host_name == d1.host_name) = true) (hfo0 d1 hd1mem)
        | some d0 =>
          have hd0 := List.mem_of_find?_eq_some hfo0
          have hp0 := List.find?_some hfo0
          rw [Bool.and_eq_true, beq_iff_eq, beq_iff_eq] at hp0
          have hkeys : obsKey d0 = obsKey d1 := by
            unfold obsKey deviceKeyStr
            rw [← hp0.1, ← hp0.2, hsh.2.1, hsh.2.2.1]
          rw [List.inj_on_of_nodup_map hnd hd0 hd1mem hkeys]
      unfold finalRow
      rw [if_pos (by simp [hsh.1]), hfo]
      show activeUpd now d1 r = r
      unfold activeUpd
      rw [← hsh.2.2.2.1, ← hsh.2.2.2.2.1, ← hsh.2.2.2.2.2.2.2.1,
        ← hsh.2.2.2.2.2.2.2.2]
  refine ⟨⟨ds.length,
    ds.countP (isNewObs jobId (applyRetentionPolicy jobId job now dbR)), w2⟩,
    applyRetentionPolicy jobId job now dbR2, ?_, ?_, ?_⟩
  · simp only [processDevices]
    rw [heq2]
  · exact hcnt0
  · have hkd2 : dbR2.known_devices =
        (applyRetentionPolicy jobId job now dbR).known_devices := by
      rw [hkdR2, hins2, List.append_nil]
      exact (List.map_congr_left (fun r hr => hid r hr)).trans (List.map_id _)
    rw [applyRetention_kd_congr jobId job now dbR2
      (applyRetentionPolicy jobId job now dbR) hkd2, applyRetention_idem]

/-- C7 witness: re-running the two-device batch over the inventory it
produced yields zero new devices and the same rows up to last-seen. -/
theorem reconcile_idempotent_witness :
    ∃ r2 db2, processDevices "j" [exObsA, exObsB] ["aa:bb:cc:dd:ee:ff"] exJob 50
        exDbOut = .ok (r2, db2) ∧
      r2.newDevices = 0 ∧
      db2.known_devices.map clearLastSeen =
        exDbOut.known_devices.map clearLastSeen :=
  reconcile_idempotent "j" [exObsA, exObsB] ["aa:bb:cc:dd:ee:ff"] exJob 50 exDb
    ⟨2, 1, 1⟩ exDbOut (by decide) (by decide) rfl
